import Mathlib

/-!
# Order reconciliation flow and query pagination of the e-commerce API

A shallow embedding of `src/services/orderService.js` (cash / card checkout,
the payment webhook and the manual status transitions) and of
`src/utils/apiFeature.js` (`filter`, `search`, `paginate`).

Modelling conventions

* Document identifiers, e-mails and messages are `String`s, as they reach the
  handlers (`req.params`, the webhook payload).
* A collection with a unique `_id` index is a finite map `String → Option doc`;
  the order collection is the list of its documents in insertion order.
* A JavaScript number is `NaN`, an infinity or a rational; the arithmetic
  operators and `Number(...)` round their exact result to binary64, to nearest
  with ties to even, with overflow to an infinity. `0` and `-0` are not
  distinguished. Quantities of stock are `Int`, amounts read from documents
  are `Rat`.
* `Date.now()` and the identifier the database gives a new order are inputs.
* Database operations succeed; what a handler does when one throws is outside
  the model.
-/

namespace Ecommerce

/-! ## JavaScript numbers and binary64 arithmetic -/

/-- A JavaScript number: `NaN`, a finite value, `Infinity`, `-Infinity`. -/
inductive JSNum where
  | nan
  | fin (q : Rat)
  | posInf
  | negInf
deriving DecidableEq, Repr

/-- The nearest integer, a half going to the even neighbour. -/
def roundHalfEven (x : Rat) : Int :=
  if x - Int.floor x < 1 / 2 then Int.floor x
  else if 1 / 2 < x - Int.floor x then Int.floor x + 1
  else if Int.floor x % 2 = 0 then Int.floor x else Int.floor x + 1

/-- The exponent of the binade of a number other than zero: the `e` with
`2 ^ e ≤ |q| < 2 ^ (e + 1)`, and `-1022` for a number below the normal range. -/
def binade (q : Rat) : Int := max (Int.log 2 |q|) (-1022)

/-- The multiple of `2 ^ (binade q - 52)` nearest to `q`, ties to the even
multiple: the binary64 value of `q`, as long as it is below `2 ^ 1024`. -/
def binary64 (q : Rat) : Rat :=
  if q = 0 then 0
  else if q < 0 then
    -((roundHalfEven (|q| / (2 : Rat) ^ (binade q - 52)) : Rat) * (2 : Rat) ^ (binade q - 52))
  else (roundHalfEven (|q| / (2 : Rat) ^ (binade q - 52)) : Rat) * (2 : Rat) ^ (binade q - 52)

namespace JSNum

/-- An infinity of the given sign. -/
def infOf (negative : Bool) : JSNum := if negative then negInf else posInf

end JSNum

/-- The JavaScript number that an exact result becomes: its binary64 value, or
an infinity when that reaches `2 ^ 1024`. -/
def roundBinary64 (q : Rat) : JSNum :=
  if (2 : Rat) ^ (1024 : Nat) ≤ |binary64 q| then JSNum.infOf (decide (q < 0))
  else .fin (binary64 q)

namespace JSNum

/-- Truthiness of a number: `NaN` and `0` are falsy. -/
def truthy : JSNum → Bool
  | nan => false
  | fin q => decide (q ≠ 0)
  | posInf => true
  | negInf => true

/-- The expression `a || b` on numbers. -/
def orElse (a b : JSNum) : JSNum := if a.truthy then a else b

/-- Unary minus. -/
def neg : JSNum → JSNum
  | nan => nan
  | fin q => fin (-q)
  | posInf => negInf
  | negInf => posInf

/-- The operator `+`. -/
def add : JSNum → JSNum → JSNum
  | nan, _ => nan
  | _, nan => nan
  | fin a, fin b => roundBinary64 (a + b)
  | fin _, posInf => posInf
  | fin _, negInf => negInf
  | posInf, negInf => nan
  | posInf, _ => posInf
  | negInf, posInf => nan
  | negInf, _ => negInf

/-- The operator `-`. -/
def sub (a b : JSNum) : JSNum := add a (neg b)

/-- The operator `*`. -/
def mul : JSNum → JSNum → JSNum
  | nan, _ => nan
  | _, nan => nan
  | fin a, fin b => roundBinary64 (a * b)
  | fin a, posInf => if a = 0 then nan else infOf (decide (a < 0))
  | fin a, negInf => if a = 0 then nan else infOf (decide (0 < a))
  | posInf, fin b => if b = 0 then nan else infOf (decide (b < 0))
  | negInf, fin b => if b = 0 then nan else infOf (decide (0 < b))
  | posInf, posInf => posInf
  | posInf, negInf => negInf
  | negInf, posInf => negInf
  | negInf, negInf => posInf

/-- The operator `/`; a zero divisor counts as `+0`. -/
def div : JSNum → JSNum → JSNum
  | nan, _ => nan
  | _, nan => nan
  | fin a, fin b =>
      if b = 0 then (if a = 0 then nan else infOf (decide (a < 0)))
      else roundBinary64 (a / b)
  | fin _, posInf => fin 0
  | fin _, negInf => fin 0
  | posInf, fin b => infOf (decide (b < 0))
  | negInf, fin b => infOf (decide (0 ≤ b))
  | posInf, _ => nan
  | negInf, _ => nan

/-- The function `Math.ceil`; the ceiling of a binary64 value is one. -/
def ceil : JSNum → JSNum
  | fin q => fin (Int.ceil q)
  | x => x

/-- The function `Math.round`: the nearest integer, halves upwards. -/
def round : JSNum → JSNum
  | fin q => fin (Int.floor (q + 1 / 2))
  | x => x

/-- The operator `<`. -/
def lt : JSNum → JSNum → Bool
  | nan, _ => false
  | _, nan => false
  | fin a, fin b => decide (a < b)
  | fin _, posInf => true
  | fin _, negInf => false
  | posInf, _ => false
  | negInf, negInf => false
  | negInf, _ => true

/-- The operator `>`. -/
def gt (a b : JSNum) : Bool := lt b a

/-- The number is an integer greater than zero. -/
def IsPositiveInteger : JSNum → Prop
  | fin q => 0 < q ∧ q.den = 1
  | _ => False

instance : DecidablePred IsPositiveInteger := fun x =>
  match x with
  | nan => isFalse (fun h => h)
  | fin q => inferInstanceAs (Decidable (0 < q ∧ q.den = 1))
  | posInf => isFalse (fun h => h)
  | negInf => isFalse (fun h => h)

end JSNum

/-! ## Data model -/

/-- One line of a cart: product reference, quantity, unit price. -/
structure CartItem where
  product : String
  quantity : Int
  price : Rat
deriving DecidableEq, Repr

/-- A cart document; `totalPriceAfterDiscount` is `none` when the field is
`undefined`. -/
structure Cart where
  cartItems : List CartItem
  totalCartPrice : Rat
  totalPriceAfterDiscount : Option Rat
deriving DecidableEq, Repr

/-- A product document, with the fields the order service reads or writes. -/
structure Product where
  title : String
  price : Rat
  priceAfterDiscount : Option Rat
  imageCoverUrl : Option String
  quantity : Int
  sold : Int
deriving DecidableEq, Repr

/-- A user document. -/
structure User where
  _id : String
  email : String
  role : String
deriving DecidableEq, Repr

/-- An order document. -/
structure Order where
  _id : String
  user : String
  cartItems : List CartItem
  shippingAddress : Option String
  totalOrderPrice : Rat
  paymentMethodType : String
  isPaid : Bool
  paidAt : Option Nat
  isDelivered : Bool
  deliveredAt : Option Nat
deriving DecidableEq, Repr

/-- The database: carts and products keyed by `_id`, the users, the orders. -/
structure Store where
  carts : String → Option Cart
  products : String → Option Product
  users : List User
  orders : List Order

/-- Modelled from the spec: `utils/apiError.js` is not among the sources. The
constructor `new APIError(message, statusCode)` keeps its two arguments; an
argument that is not passed is `undefined`, here `none`. -/
structure APIError where
  message : String
  statusCode : Option Nat
deriving DecidableEq, Repr

/-- The body of a response. -/
inductive Body where
  | orderData (status : String) (data : Order)
  | sessionData (status : String) (url : String)
  | received (flag : Bool)
  | text (msg : String)
deriving DecidableEq, Repr

/-- What a handler does with the request: it answers (`res.status(c)` followed
by `.json` or `.send`) or it hands an error to `next`; `extra` holds the
arguments of `next` after the first, which Express does not read. -/
inductive Outcome where
  | respond (status : Nat) (body : Body)
  | next (err : APIError) (extra : List Nat)
deriving DecidableEq, Repr

/-- The status code of the answer, when the handler answered. -/
def Outcome.status? : Outcome → Option Nat
  | .respond c _ => some c
  | .next _ _ => none

/-- The error forwarded to the error responder, when the handler called `next`. -/
def Outcome.error? : Outcome → Option APIError
  | .respond _ _ => none
  | .next e _ => some e

/-! ## Database operations used by the order service -/

/-- JavaScript truthiness of a numeric field that may be `undefined`: `undefined`
and `0` are falsy. -/
def truthyNum : Option Rat → Bool
  | none => false
  | some q => decide (q ≠ 0)

/-- The operation `$inc: { quantity: -q, sold: +q }` on one product document. -/
def incProduct (q : Int) (p : Product) : Product :=
  { p with quantity := p.quantity + (-q), sold := p.sold + q }

/-- One `updateOne` of the batch: `filter: { _id: item.product }`, the `$inc`
above as update. A filter that matches no document changes nothing. -/
def updateOne (products : String → Option Product) (item : CartItem) :
    String → Option Product :=
  fun id => if id = item.product then (products id).map (incProduct item.quantity)
            else products id

/-- The call `ProductModel.bulkWrite(ops)`: the operations run in order. -/
def bulkWrite (products : String → Option Product) (ops : List CartItem) :
    String → Option Product :=
  ops.foldl updateOne products

/-- The call `CartModel.findByIdAndDelete(cartId)`. -/
def findByIdAndDelete (carts : String → Option Cart) (cartId : String) :
    String → Option Cart :=
  fun id => if id = cartId then none else carts id

/-- Modelled from the spec: `models/orderModel.js` is not among the sources.
`OrderModel.create` fills the fields that are not passed with the schema
defaults: payment method `cash`, unpaid, undelivered, no timestamps. -/
def orderDefaults (oid user : String) (items : List CartItem) (total : Rat) : Order :=
  { _id := oid, user := user, cartItems := items, shippingAddress := none,
    totalOrderPrice := total, paymentMethodType := "cash",
    isPaid := false, paidAt := none, isDelivered := false, deliveredAt := none }

/-! ## `createCashOrder` -/

/-- The order price of `createCashOrder` and `checkoutSession`:
`cart.totalPriceAfterDiscount ? cart.totalPriceAfterDiscount : cart.totalCartPrice`
plus `taxPrice` and `shippingPrice`, both `0`; adding `0` to a binary64 value
is exact. -/
def totalOrderPrice (cart : Cart) : Rat :=
  let taxPrice : Rat := 0
  let shippingPrice : Rat := 0
  let cartPrice : Rat :=
    if truthyNum cart.totalPriceAfterDiscount then cart.totalPriceAfterDiscount.getD 0
    else cart.totalCartPrice
  cartPrice + taxPrice + shippingPrice

/-- The handler `createCashOrder`: `userId` is `req.user._id`, `cartId` is
`req.params.cartId`, `oid` the identifier of the new order document.
`OrderModel.create` resolves to the new document, so the branch `if (order)`
is taken. Returns the store afterwards and the outcome. -/
def createCashOrder (oid userId cartId : String) (st : Store) : Store × Outcome :=
  match st.carts cartId with
  | none =>
      (st, .next { message := "No Cart found with Id: " ++ cartId, statusCode := none } [404])
  | some cart =>
      let order := orderDefaults oid userId cart.cartItems (totalOrderPrice cart)
      ({ st with
          orders := st.orders ++ [order]
          products := bulkWrite st.products cart.cartItems
          carts := findByIdAndDelete st.carts cartId },
       .respond 201 (.orderData "success" order))

/-! ## `checkoutSession` -/

/-- One entry of `line_items` in the request to the payment provider. -/
structure LineItem where
  currency : String
  unit_amount : JSNum
  name : String
  images : List String
  quantity : Int
deriving DecidableEq, Repr

/-- The argument of `stripe.checkout.sessions.create`; `totalPrice` is the
number that the source formats with `toFixed(2)`. -/
structure SessionParams where
  line_items : List LineItem
  mode : String
  success_url : String
  cancel_url : String
  customer_email : String
  client_reference_id : String
  shippingAddress : String
  totalPrice : Rat
deriving DecidableEq, Repr

/-- The parts of the request that `checkoutSession` reads. -/
structure CheckoutRequest where
  protocol : String
  host : String
  userEmail : String
  cartId : String
  shippingAddress : Option String
deriving DecidableEq, Repr

/-- The line item built from a cart item whose product reference has been
populated: `Math.round((product.priceAfterDiscount || product.price) * 100)`,
the price being the binary64 value of the stored amount and the product with
100 being rounded to binary64 before `Math.round`. -/
def lineItem (product : Product) (item : CartItem) : LineItem :=
  { currency := "egp"
    unit_amount :=
      ((roundBinary64
          (if truthyNum product.priceAfterDiscount then product.priceAfterDiscount.getD 0
           else product.price)).mul (.fin 100)).round
    name := product.title
    images := match product.imageCoverUrl with
      | some u => if u = "" then [] else [u]
      | none => []
    quantity := item.quantity }

/-- The `cartItems.map` of `checkoutSession`; a reference that `populate` left
`null` makes the property access throw, here `none`. -/
def lineItems (products : String → Option Product) : List CartItem → Option (List LineItem)
  | [] => some []
  | item :: rest =>
      match products item.product, lineItems products rest with
      | some p, some ls => some (lineItem p item :: ls)
      | _, _ => none

/-- The handler `checkoutSession`; `create` stands for the payment provider,
which answers a session request with the URL of the hosted page. The store is
only read. An exception of the handler reaches `next` through `asyncHandler`
as an error without status code. -/
def checkoutSession (create : SessionParams → String) (req : CheckoutRequest)
    (st : Store) : Outcome × Option SessionParams :=
  match st.carts req.cartId with
  | none =>
      (.next { message := "No such cart with id: " ++ req.cartId, statusCode := some 404 } [],
       none)
  | some cart =>
      match lineItems st.products cart.cartItems with
      | none =>
          (.next { message := "Cannot read properties of null", statusCode := none } [], none)
      | some items =>
          let params : SessionParams :=
            { line_items := items
              mode := "payment"
              success_url := req.protocol ++ "://" ++ req.host ++ "/orders"
              cancel_url := req.protocol ++ "://" ++ req.host ++ "/cart"
              customer_email := req.userEmail
              client_reference_id := req.cartId
              shippingAddress := req.shippingAddress.getD "\x7b\x7d"
              totalPrice := totalOrderPrice cart }
          (.respond 200 (.sessionData "success" (create params)), some params)

/-! ## `createCardOrder` and `webhookCheckout` -/

/-- The completed checkout session carried by a webhook event. -/
structure Session where
  client_reference_id : String
  metadata : Option String
  amount_total : Rat
  customer_email : String
deriving DecidableEq, Repr

/-- A verified webhook event. -/
structure Event where
  type : String
  object : Session
deriving DecidableEq, Repr

/-- The identifiers that `orderService.js` binds at module level, by `require`
or by `const`, in the order of the file. -/
def orderServiceScope : List String :=
  ["dotenv", "stripe", "asyncHandler", "APIError", "factory", "OrderModel", "CartModel",
   "ProductModel", "filterOrderForLoggedUsers", "createCashOrder", "checkoutSession",
   "createCardOrder", "webhookCheckout", "getOrders", "getOrderById", "updateOrderToPaid",
   "updateOrderToDelivered"]

/-- The body of `createCardOrder`, run in a module whose bound identifiers are
`scope`. Evaluating the identifier `UserModel` when it is not bound throws a
`ReferenceError`; the `catch` of the function logs it and the function returns.
Returns the store afterwards and the lines written by `console.error`. -/
def createCardOrderIn (scope : List String) (oid : String) (now : Nat) (session : Session)
    (st : Store) : Store × List String :=
  let cartId := session.client_reference_id
  let shippingAddress := session.metadata
  let orderPrice := binary64 (binary64 session.amount_total / 100)
  let cart := st.carts cartId
  if "UserModel" ∈ scope then
    let user := st.users.find? (fun u => decide (u.email = session.customer_email))
    match cart, user with
    | some cart, some user =>
        let order : Order :=
          { orderDefaults oid user._id cart.cartItems orderPrice with
            shippingAddress := shippingAddress
            isPaid := true
            paidAt := some now
            paymentMethodType := "card" }
        ({ st with
            orders := st.orders ++ [order]
            products := bulkWrite st.products cart.cartItems
            carts := findByIdAndDelete st.carts cartId }, [])
    | _, _ => (st, [])
  else
    (st, ["Error creating card order: UserModel is not defined"])

/-- The function `createCardOrder` of `orderService.js`. -/
def createCardOrder (oid : String) (now : Nat) (session : Session) (st : Store) :
    Store × List String :=
  createCardOrderIn orderServiceScope oid now session st

/-- What `webhookCheckout` leaves behind: the store, the answer, the sessions
it passed to `createCardOrder`, the lines logged. -/
structure WebhookResult where
  store : Store
  outcome : Outcome
  reconciled : List Session
  log : List String

/-- The handler `webhookCheckout`. `constructEvent body sig secret` stands for
`stripe.webhooks.constructEvent`: the verified event, or the message of the
exception it throws. -/
def webhookCheckout (constructEvent : String → Option String → String → Except String Event)
    (secret : String) (oid : String) (now : Nat) (body : String) (sig : Option String)
    (st : Store) : WebhookResult :=
  match constructEvent body sig secret with
  | .error msg =>
      { store := st, outcome := .respond 400 (.text ("Webhook Error: " ++ msg)),
        reconciled := [], log := [] }
  | .ok event =>
      if event.type = "checkout.session.completed" then
        let r := createCardOrder oid now event.object st
        { store := r.1, outcome := .respond 200 (.received true),
          reconciled := [event.object], log := r.2 }
      else
        { store := st, outcome := .respond 200 (.received true), reconciled := [], log := [] }

/-! ## Manual status transitions -/

/-- The call `OrderModel.findById(id)`. -/
def findOrder (orders : List Order) (id : String) : Option Order :=
  orders.find? (fun o => decide (o._id = id))

/-- The call `order.save()`: the stored document with the identifier of `order` is
replaced by `order`. -/
def saveOrder (order : Order) : List Order → List Order
  | [] => []
  | o :: rest => if o._id = order._id then order :: rest else o :: saveOrder order rest

/-- The handler `updateOrderToPaid`. -/
def updateOrderToPaid (now : Nat) (id : String) (st : Store) : Store × Outcome :=
  match findOrder st.orders id with
  | none =>
      (st, .next { message := "No Order found with Id: " ++ id, statusCode := none } [404])
  | some order =>
      let updatedOrder := { order with isPaid := true, paidAt := some now }
      ({ st with orders := saveOrder updatedOrder st.orders },
       .respond 200 (.orderData "success" updatedOrder))

/-- The handler `updateOrderToDelivered`. -/
def updateOrderToDelivered (now : Nat) (id : String) (st : Store) : Store × Outcome :=
  match findOrder st.orders id with
  | none =>
      (st, .next { message := "No Order found with Id: " ++ id, statusCode := none } [404])
  | some order =>
      let updatedOrder := { order with isDelivered := true, deliveredAt := some now }
      ({ st with orders := saveOrder updatedOrder st.orders },
       .respond 200 (.orderData "success" updatedOrder))

/-! ## The coercion `Number(...)` -/

/-- A value of the parsed query string: a string, an array or a nested object. -/
inductive QValue where
  | str (s : String)
  | arr (items : List QValue)
  | obj (fields : List (String × QValue))

mutual
/-- The string that `ToPrimitive` gives a query value: the string itself, the
elements of an array joined by commas, `[object Object]` for an object. -/
def QValue.toStr : QValue → String
  | .str s => s
  | .arr items => QValue.joinStr items
  | .obj _ => "[object Object]"
/-- The elements of an array, converted and joined by commas. -/
def QValue.joinStr : List QValue → String
  | [] => ""
  | [v] => v.toStr
  | v :: rest => v.toStr ++ "," ++ QValue.joinStr rest
end

/-- What a string literal denotes before it becomes a number: not a number, an
infinity, or `±mant · 10 ^ exp`. -/
inductive StrNum where
  | nan
  | inf (negative : Bool)
  | dec (negative : Bool) (mant : Nat) (exp : Int)
deriving DecidableEq, Repr

/-- White space and line terminators, which `Number` strips at both ends. -/
def isStrWhiteSpace (c : Char) : Bool :=
  c.toNat ∈ [0x09, 0x0A, 0x0B, 0x0C, 0x0D, 0x20, 0xA0, 0x1680, 0x2000, 0x2001, 0x2002,
    0x2003, 0x2004, 0x2005, 0x2006, 0x2007, 0x2008, 0x2009, 0x200A, 0x2028, 0x2029,
    0x202F, 0x205F, 0x3000, 0xFEFF]

/-- The value of a digit in the given base, letters counting from ten. -/
def digitVal (base : Nat) (c : Char) : Option Nat :=
  let v : Option Nat :=
    if '0' ≤ c ∧ c ≤ '9' then some (c.toNat - '0'.toNat)
    else if 'a' ≤ c ∧ c ≤ 'f' then some (c.toNat - 'a'.toNat + 10)
    else if 'A' ≤ c ∧ c ≤ 'F' then some (c.toNat - 'A'.toNat + 10)
    else none
  v.filter (fun d => decide (d < base))

/-- The longest prefix of digits of the base, as values, and the rest. -/
def spanDigits (base : Nat) : List Char → List Nat × List Char
  | [] => ([], [])
  | c :: cs =>
      match digitVal base c with
      | some d => ((spanDigits base cs).1.cons d, (spanDigits base cs).2)
      | none => ([], c :: cs)

/-- The natural number written by a list of digit values. -/
def natOfDigits (base : Nat) (ds : List Nat) : Nat :=
  ds.foldl (fun a d => a * base + d) 0

/-- A literal `0x…`, `0o…` or `0b…` after its prefix: digits only, at least one. -/
def nonDecimal (base : Nat) (cs : List Char) : StrNum :=
  match spanDigits base cs with
  | (d :: ds, []) => .dec false (natOfDigits base (d :: ds)) 0
  | _ => .nan

/-- The exponent part of a decimal literal, `none` when it is malformed. -/
def exponentPart : List Char → Option Int
  | [] => some 0
  | e :: rest =>
      if e = 'e' ∨ e = 'E' then
        let negative := rest.head? = some '-'
        let body := if rest.head? = some '-' ∨ rest.head? = some '+' then rest.tail else rest
        match spanDigits 10 body with
        | (d :: ds, []) =>
            some (if negative then -(natOfDigits 10 (d :: ds) : Int)
                  else (natOfDigits 10 (d :: ds) : Int))
        | _ => none
      else none

/-- An unsigned decimal literal: `Infinity`, or digits with an optional
fraction and exponent, at least one digit before the exponent. -/
def unsignedDecimal (negative : Bool) (cs : List Char) : StrNum :=
  if cs = "Infinity".toList then .inf negative
  else
    let ip := spanDigits 10 cs
    let fp := match ip.2 with
      | '.' :: r => spanDigits 10 r
      | r => ([], r)
    if ip.1 = [] ∧ fp.1 = [] then .nan
    else
      match exponentPart fp.2 with
      | some e => .dec negative (natOfDigits 10 (ip.1 ++ fp.1)) (e - fp.1.length)
      | none => .nan

/-- The grammar of `StringToNumber`, on a string without surrounding blanks. -/
def strNumericLiteral : List Char → StrNum
  | [] => .dec false 0 0
  | '0' :: 'x' :: cs => nonDecimal 16 cs
  | '0' :: 'X' :: cs => nonDecimal 16 cs
  | '0' :: 'o' :: cs => nonDecimal 8 cs
  | '0' :: 'O' :: cs => nonDecimal 8 cs
  | '0' :: 'b' :: cs => nonDecimal 2 cs
  | '0' :: 'B' :: cs => nonDecimal 2 cs
  | '+' :: cs => unsignedDecimal false cs
  | '-' :: cs => unsignedDecimal true cs
  | cs => unsignedDecimal false cs

/-- The string with the blanks at both ends removed. -/
def trimWhiteSpace (cs : List Char) : List Char :=
  ((cs.dropWhile isStrWhiteSpace).reverse.dropWhile isStrWhiteSpace).reverse

/-- The literal that a string holds. -/
def parseNumber (s : String) : StrNum :=
  strNumericLiteral (trimWhiteSpace s.toList)

/-- The number that a literal denotes: the exact value `±mant · 10 ^ exp`,
rounded to binary64. -/
def StrNum.toJSNum : StrNum → JSNum
  | .nan => .nan
  | .inf negative => JSNum.infOf negative
  | .dec negative mant exp =>
      let scaled : Rat :=
        if 0 ≤ exp then (mant : Rat) * (10 : Rat) ^ exp.toNat
        else (mant : Rat) / (10 : Rat) ^ (-exp).toNat
      roundBinary64 (if negative then -scaled else scaled)

/-- The coercion `Number(v)` of a query parameter; `none` is `undefined`. -/
def Number : Option QValue → JSNum
  | none => .nan
  | some v => (parseNumber v.toStr).toJSNum

/-! ## `APIFeature.paginate` -/

/-- The record `paginationResult`; `none` is `null`. -/
structure PaginationResult where
  currentPage : JSNum
  limit : JSNum
  numberOfPages : JSNum
  totalDocs : JSNum
  next : Option JSNum
  previous : Option JSNum
deriving DecidableEq, Repr

/-- What `paginate` leaves on the builder: the record and the arguments of the
calls `.skip(skip).limit(limit)` on the query. -/
structure Paginated where
  paginationResult : PaginationResult
  skip : JSNum
  limit : JSNum
deriving DecidableEq, Repr

/-- The method `paginate(totalDocs)` of `APIFeature` on the query string
`queryString`. -/
def paginate (queryString : List (String × QValue)) (totalDocs : JSNum) : Paginated :=
  let page := (Number (queryString.lookup "page")).orElse (.fin 1)
  let limit := (Number (queryString.lookup "limit")).orElse (.fin 50)
  let skip := (page.sub (.fin 1)).mul limit
  let numberOfPages := (totalDocs.div limit).ceil
  { paginationResult :=
      { currentPage := page
        limit := limit
        numberOfPages := numberOfPages
        totalDocs := totalDocs
        next := if page.lt numberOfPages then some (page.add (.fin 1)) else none
        previous := if page.gt (.fin 1) then some (page.sub (.fin 1)) else none }
    skip := skip
    limit := limit }

/-- One call of an exposed status operation: the time of the call and the id
in the route. -/
inductive StatusOp where
  | pay (now : Nat) (id : String)
  | deliver (now : Nat) (id : String)
deriving DecidableEq, Repr

/-- The store after one status operation. -/
def StatusOp.run (st : Store) : StatusOp → Store
  | .pay now id => (updateOrderToPaid now id st).1
  | .deliver now id => (updateOrderToDelivered now id st).1

/-- The store after a sequence of status operations, first to last. -/
def runStatusOps (ops : List StatusOp) (st : Store) : Store :=
  ops.foldl StatusOp.run st

/-- Some operation of the sequence marks the order `id` paid. -/
def paysOrder (id : String) (ops : List StatusOp) : Bool :=
  ops.any (fun op => match op with
    | .pay _ j => decide (j = id)
    | .deliver _ _ => false)

/-- Some operation of the sequence marks the order `id` delivered. -/
def deliversOrder (id : String) (ops : List StatusOp) : Bool :=
  ops.any (fun op => match op with
    | .pay _ _ => false
    | .deliver _ j => decide (j = id))

/-! ## `APIFeature.filter`

The built-ins `JSON.stringify`, `String.prototype.replace` with the pattern
`/\b(gte|gt|lte|lt)\b/g` and `JSON.parse` are modelled on lists of characters.
An object is the list of its properties in enumeration order. The texts that
arise hold strings, arrays and objects only, and so does the reader. -/

/-- The hexadecimal digit of a number below sixteen, in lower case. -/
def hexDigit (n : Nat) : Char :=
  if n < 10 then Char.ofNat (48 + n) else Char.ofNat (87 + n)

/-- How `JSON.stringify` writes one character of a string. -/
def escapeChar (c : Char) : List Char :=
  if c = '"' then ['\\', '"']
  else if c = '\\' then ['\\', '\\']
  else if c = '\x08' then ['\\', 'b']
  else if c = '\x0c' then ['\\', 'f']
  else if c = '\n' then ['\\', 'n']
  else if c = '\r' then ['\\', 'r']
  else if c = '\t' then ['\\', 't']
  else if c.toNat < 0x20 then
    ['\\', 'u', '0', '0', hexDigit (c.toNat / 16), hexDigit (c.toNat % 16)]
  else [c]

/-- A string as `JSON.stringify` writes it, between double quotes. -/
def quoteString (cs : List Char) : List Char :=
  '"' :: (cs.flatMap escapeChar ++ ['"'])

mutual
/-- The text `JSON.stringify(v)`. -/
def stringify : QValue → List Char
  | .str s => quoteString s.toList
  | .arr items => '[' :: (stringifyItems items ++ [']'])
  | .obj fields => '\x7b' :: (stringifyFields fields ++ ['\x7d'])
/-- The elements of an array, separated by commas. -/
def stringifyItems : List QValue → List Char
  | [] => []
  | [v] => stringify v
  | v :: rest => stringify v ++ ',' :: stringifyItems rest
/-- The properties of an object, separated by commas. -/
def stringifyFields : List (String × QValue) → List Char
  | [] => []
  | [(k, v)] => quoteString k.toList ++ ':' :: stringify v
  | (k, v) :: rest =>
      quoteString k.toList ++ ':' :: (stringify v ++ ',' :: stringifyFields rest)
end

/-- The class `\w` of the pattern: letters, digits and the underscore. -/
def isWordChar (c : Char) : Bool :=
  ('a' ≤ c ∧ c ≤ 'z') ∨ ('A' ≤ c ∧ c ≤ 'Z') ∨ ('0' ≤ c ∧ c ≤ '9') ∨ c = '_'

/-- The text starts with the token and the token ends at a word boundary. -/
def tokenAt (token cs : List Char) : Bool :=
  token.isPrefixOf cs &&
    (match cs.drop token.length with
     | [] => true
     | c :: _ => !isWordChar c)

/-- The alternation `(gte|gt|lte|lt)` followed by `\b` matches at the start of
the text. -/
def operatorAt (cs : List Char) : Bool :=
  tokenAt "gte".toList cs || tokenAt "gt".toList cs ||
    tokenAt "lte".toList cs || tokenAt "lt".toList cs

/-- The call `replace(/\b(gte|gt|lte|lt)\b/g, (match) => "$" + match)`:
`prevWord` tells whether the character before the text is a word character. A
match is copied behind a `$`; its characters are word characters, so no other
match starts inside it. -/
def replaceOperators (prevWord : Bool) : List Char → List Char
  | [] => []
  | c :: cs =>
      if !prevWord && operatorAt (c :: cs) then '$' :: c :: replaceOperators true cs
      else c :: replaceOperators (isWordChar c) cs

/-- The blanks that `JSON.parse` skips between tokens. -/
def skipBlanks (cs : List Char) : List Char :=
  cs.dropWhile (fun c => c = ' ' ∨ c = '\t' ∨ c = '\n' ∨ c = '\r')

/-- The character that four hexadecimal digits denote. -/
def unicodeEscape (a b c d : Char) : Option Char :=
  match digitVal 16 a, digitVal 16 b, digitVal 16 c, digitVal 16 d with
  | some x, some y, some z, some w => some (Char.ofNat (((x * 16 + y) * 16 + z) * 16 + w))
  | _, _, _, _ => none

/-- The character that a one-letter escape denotes. -/
def simpleEscape (e : Char) : Option Char :=
  if e = '"' then some '"'
  else if e = '\\' then some '\\'
  else if e = '/' then some '/'
  else if e = 'b' then some '\x08'
  else if e = 'f' then some '\x0c'
  else if e = 'n' then some '\n'
  else if e = 'r' then some '\r'
  else if e = 't' then some '\t'
  else none

/-- A string literal behind its opening quote: the string and the text behind
the closing quote. -/
def parseStringBody : List Char → Option (List Char × List Char)
  | [] => none
  | '"' :: rest => some ([], rest)
  | '\\' :: 'u' :: a :: b :: c :: d :: rest =>
      match unicodeEscape a b c d, parseStringBody rest with
      | some x, some (s, r) => some (x :: s, r)
      | _, _ => none
  | '\\' :: e :: rest =>
      match simpleEscape e, parseStringBody rest with
      | some x, some (s, r) => some (x :: s, r)
      | _, _ => none
  | c :: rest =>
      if c = '\\' ∨ c.toNat < 0x20 then none
      else (parseStringBody rest).map (fun sr => (c :: sr.1, sr.2))

/-- The property `key` set to `v`: in place when the object has the key, at the
end otherwise. -/
def setProperty (key : String) (v : QValue) : List (String × QValue) → List (String × QValue)
  | [] => [(key, v)]
  | (k, w) :: rest =>
      if k = key then (k, v) :: rest else (k, w) :: setProperty key v rest

/-- The object that a list of members makes, a later member replacing the value
of an earlier one with the same key. -/
def buildObject (members : List (String × QValue)) : List (String × QValue) :=
  members.foldl (fun acc kv => setProperty kv.1 kv.2 acc) []

mutual
/-- A value at the start of the text, and the text behind it. -/
def parseValue : Nat → List Char → Option (QValue × List Char)
  | 0, _ => none
  | fuel + 1, cs =>
      match skipBlanks cs with
      | '"' :: rest =>
          (parseStringBody rest).map (fun sr => (QValue.str (String.mk sr.1), sr.2))
      | '[' :: rest =>
          match skipBlanks rest with
          | ']' :: r => some (.arr [], r)
          | _ => (parseElements fuel rest).map (fun vr => (QValue.arr vr.1, vr.2))
      | '\x7b' :: rest =>
          match skipBlanks rest with
          | '\x7d' :: r => some (.obj [], r)
          | _ => (parseMembers fuel rest).map (fun mr => (QValue.obj (buildObject mr.1), mr.2))
      | _ => none
/-- The elements of an array up to the closing bracket. -/
def parseElements : Nat → List Char → Option (List QValue × List Char)
  | 0, _ => none
  | fuel + 1, cs =>
      match parseValue fuel cs with
      | none => none
      | some (v, r) =>
          match skipBlanks r with
          | ',' :: r2 => (parseElements fuel r2).map (fun vr => (v :: vr.1, vr.2))
          | ']' :: r2 => some ([v], r2)
          | _ => none
/-- The members of an object up to the closing brace. -/
def parseMembers : Nat → List Char → Option (List (String × QValue) × List Char)
  | 0, _ => none
  | fuel + 1, cs =>
      match skipBlanks cs with
      | '"' :: rest =>
          match parseStringBody rest with
          | none => none
          | some (k, r) =>
              match skipBlanks r with
              | ':' :: r2 =>
                  match parseValue fuel r2 with
                  | none => none
                  | some (v, r3) =>
                      match skipBlanks r3 with
                      | ',' :: r4 =>
                          (parseMembers fuel r4).map
                            (fun mr => ((String.mk k, v) :: mr.1, mr.2))
                      | '\x7d' :: r4 => some ([(String.mk k, v)], r4)
                      | _ => none
              | _ => none
      | _ => none
end

/-- The call `JSON.parse(text)`, `none` when it throws. Every call of the
reader uses up one unit of fuel, and two units per character bound the calls. -/
def jsonParse (text : List Char) : Option QValue :=
  match parseValue (2 * text.length + 2) text with
  | some (v, r) => if skipBlanks r = [] then some v else none
  | none => none

/-- The array `excludesFields` of `filter`. -/
def excludesFields : List String := ["page", "limit", "sort", "fields", "keyword"]

/-- The method `filter()` of `APIFeature`: the value stored in `_filter` and
passed to `find`, `none` when `JSON.parse` throws. The copy `queryStringObj`
loses the excluded keys; the query string itself is not touched. -/
def filter (queryString : List (String × QValue)) : Option QValue :=
  let queryStringObj := queryString.filter (fun kv => !excludesFields.contains kv.1)
  let queryStr := stringify (.obj queryStringObj)
  let queryStr := replaceOperators false queryStr
  jsonParse queryStr

/-! ## `APIFeature.search` -/

/-- One clause `field: ($regex: keyword, $options: "i")` of the search query. -/
structure RegexClause where
  field : String
  regex : QValue
  options : String

/-- The query `$or: [clauses]` that `search` hands to `find`. -/
structure OrQuery where
  or : List RegexClause

/-- Truthiness of a query parameter: `undefined` and the empty string are
falsy, arrays and objects are truthy. -/
def QValue.truthy : Option QValue → Bool
  | none => false
  | some (.str s) => decide (s ≠ "")
  | some (.arr _) => true
  | some (.obj _) => true

/-- The method `search(modelName)` of `APIFeature`: the query stored in
`_search` and passed to `find`, `none` when the keyword is falsy and no query
is built. -/
def search (modelName : String) (queryString : List (String × QValue)) : Option OrQuery :=
  match queryString.lookup "keyword" with
  | none => none
  | some keyword =>
      if QValue.truthy (some keyword) then
        if modelName = "Product" then
          some { or := [⟨"title", keyword, "i"⟩, ⟨"description", keyword, "i"⟩] }
        else if modelName = "User" then
          some { or := [⟨"firstName", keyword, "i"⟩, ⟨"lastName", keyword, "i"⟩,
                        ⟨"email", keyword, "i"⟩] }
        else
          some { or := [⟨"name", keyword, "i"⟩] }
      else none

/-! ## How the database evaluates a `$regex` clause

The pattern language is modelled for patterns made of ordinary characters and
the dot; a pattern with another metacharacter has no modelled meaning. Case is
folded with `Char.toLower`. -/

/-- One position of a pattern: a given character, or the dot. -/
inductive RegexAtom where
  | char (c : Char)
  | any
deriving DecidableEq, Repr

/-- The characters with a special meaning in a pattern, the dot apart. -/
def isRegexMeta (c : Char) : Bool :=
  c ∈ ['\\', '^', '$', '[', ']', '|', '(', ')', '?', '*', '+', '\x7b', '\x7d']

/-- The pattern that a keyword denotes, `none` outside the modelled fragment. -/
def parsePattern : List Char → Option (List RegexAtom)
  | [] => some []
  | c :: cs =>
      if isRegexMeta c then none
      else (parsePattern cs).map
        (fun atoms => (if c = '.' then RegexAtom.any else RegexAtom.char c) :: atoms)

/-- One position of the pattern against one character: the dot takes every
character but the line feed. -/
def atomMatches (caseless : Bool) : RegexAtom → Char → Bool
  | .any, c => decide (c ≠ '\n')
  | .char a, c => if caseless then decide (a.toLower = c.toLower) else decide (a = c)

/-- The pattern matches at the start of the text. -/
def matchesAt (caseless : Bool) : List RegexAtom → List Char → Bool
  | [], _ => true
  | _ :: _, [] => false
  | a :: atoms, c :: cs => atomMatches caseless a c && matchesAt caseless atoms cs

/-- The pattern matches somewhere in the text. -/
def regexSearch (caseless : Bool) (atoms : List RegexAtom) : List Char → Bool
  | [] => matchesAt caseless atoms []
  | c :: cs => matchesAt caseless atoms (c :: cs) || regexSearch caseless atoms cs

/-- One clause on a document, given as its string fields: the field exists and
the pattern matches in it. `none` when the pattern is not a string or lies
outside the modelled fragment. -/
def RegexClause.eval (clause : RegexClause) (doc : List (String × String)) : Option Bool :=
  match clause.regex with
  | .str pattern =>
      (parsePattern pattern.toList).map (fun atoms =>
        match doc.lookup clause.field with
        | some text => regexSearch (clause.options.toList.contains 'i') atoms text.toList
        | none => false)
  | _ => none

/-- The disjunction of clauses on a document: some clause matches. -/
def evalClauses (doc : List (String × String)) : List RegexClause → Option Bool
  | [] => some false
  | clause :: rest =>
      match clause.eval doc, evalClauses doc rest with
      | some b, some bs => some (b || bs)
      | _, _ => none

/-- The query on a document. -/
def OrQuery.eval (q : OrQuery) (doc : List (String × String)) : Option Bool :=
  evalClauses doc q.or

/-- The text contains the keyword as a literal substring, case ignored. -/
def containsIgnoreCase (keyword text : String) : Prop :=
  (keyword.toList.map Char.toLower) <:+: (text.toList.map Char.toLower)

instance (keyword text : String) : Decidable (containsIgnoreCase keyword text) :=
  inferInstanceAs (Decidable (_ <:+: _))

/-- The field of the document exists and contains the keyword, case ignored. -/
def fieldContains (keyword field : String) (doc : List (String × String)) : Bool :=
  match doc.lookup field with
  | some text => decide (containsIgnoreCase keyword text)
  | none => false

/-! ## Quantities of the specification and concrete stores -/

/-- The sum of the quantities of the line items that reference product `P`. -/
def orderedQuantity (P : String) (items : List CartItem) : Int :=
  ((items.filter (fun i => decide (i.product = P))).map (fun i => i.quantity)).sum

/-- A product document with the given title, price and stock. -/
def mkProduct (title : String) (price : Rat) (quantity sold : Int) : Product :=
  { title := title, price := price, priceAfterDiscount := none, imageCoverUrl := none,
    quantity := quantity, sold := sold }

/-- The cart of the example: two units of `P1` at 10, one unit of `P2` at 5. -/
def demoCart : Cart :=
  { cartItems := [⟨"P1", 2, 10⟩, ⟨"P2", 1, 5⟩], totalCartPrice := 25,
    totalPriceAfterDiscount := none }

/-- A store that holds `demoCart` as cart `c1`, the products `P1`, `P2`, `P3`,
one user and no order. -/
def demoStore : Store :=
  { carts := fun id => if id = "c1" then some demoCart else none
    products := fun id =>
      if id = "P1" then some (mkProduct "shirt" 10 10 0)
      else if id = "P2" then some (mkProduct "cap" 5 5 3)
      else if id = "P3" then some (mkProduct "belt" 7 4 1)
      else none
    users := [⟨"u1", "ann@example.com", "user"⟩]
    orders := [] }

/-- A cart of total 100 on which a coupon of 100 % left a discounted total of 0. -/
def freeCart : Cart :=
  { cartItems := [⟨"P1", 1, 100⟩], totalCartPrice := 100, totalPriceAfterDiscount := some 0 }

/-- The store `demoStore` with `freeCart` as cart `c2`. -/
def freeStore : Store :=
  { demoStore with carts := fun id => if id = "c2" then some freeCart else demoStore.carts id }

/-- A payment provider that answers every session request with one URL. -/
def demoCreate : SessionParams → String := fun _ => "https://pay.example/session"

/-- A checkout request of the user of `demoStore` for the cart `cartId`. -/
def demoRequest (cartId : String) : CheckoutRequest :=
  { protocol := "https", host := "shop.example", userEmail := "ann@example.com",
    cartId := cartId, shippingAddress := none }

/-- The completed session of the example: cart `c1`, paid 25.00 by the user of
`demoStore`. -/
def demoSession : Session :=
  { client_reference_id := "c1", metadata := some "Cairo", amount_total := 2500,
    customer_email := "ann@example.com" }

/-- A signature check that accepts the signature `sig-ok` and reads the type of
the event from the body. -/
def demoConstructEvent : String → Option String → String → Except String Event :=
  fun body sig _ =>
    if sig = some "sig-ok" then .ok { type := body, object := demoSession }
    else .error "No signatures found matching the expected signature for payload"

/-- The store after the cash checkout of cart `c1`: one order `o1`, unpaid and
undelivered. -/
def cashStore : Store := (createCashOrder "o1" "u1" "c1" demoStore).1

/-- A store whose only order `o2` was created paid, as a card order is. -/
def cardStore : Store :=
  { demoStore with
    orders := [{ orderDefaults "o2" "u1" demoCart.cartItems 25 with
                 isPaid := true, paidAt := some 3, paymentMethodType := "card" }] }

/-! ## Cash checkout -/

/-- The batch of updates changes the stock of every product by the quantity
ordered of it. -/
theorem bulkWrite_apply (items : List CartItem) (products : String → Option Product)
    (P : String) :
    bulkWrite products items P =
      (products P).map (fun p =>
        { p with quantity := p.quantity - orderedQuantity P items
                 sold := p.sold + orderedQuantity P items }) := by
  induction items generalizing products with
  | nil =>
      cases h : products P <;> simp [bulkWrite, orderedQuantity, h]
  | cons i rest ih =>
      have step : bulkWrite products (i :: rest) P = bulkWrite (updateOne products i) rest P := rfl
      rw [step, ih]
      by_cases hP : P = i.product
      · subst hP
        cases h : products i.product <;>
          simp [updateOne, orderedQuantity, incProduct, h]
        constructor <;> ring
      · have hP2 : ¬ i.product = P := fun e => hP e.symm
        simp [updateOne, orderedQuantity, hP, hP2]

/-- The order price is the discounted total when that field holds a number
other than zero, and the undiscounted total when it is `undefined` or zero. -/
theorem totalOrderPrice_eq (cart : Cart) :
    totalOrderPrice cart =
      match cart.totalPriceAfterDiscount with
      | some d => if d = 0 then cart.totalCartPrice else d
      | none => cart.totalCartPrice := by
  cases h : cart.totalPriceAfterDiscount with
  | none => simp [totalOrderPrice, truthyNum, h]
  | some d =>
      by_cases hd : d = 0 <;> simp [totalOrderPrice, truthyNum, h, hd]

/-- C1. When the cart exists, `createCashOrder` appends one order that carries
the line items of the cart and answers 201 with it; afterwards every product
`P` has its quantity lowered and its sold count raised by the sum of the
quantities of the line items that reference `P`, a product that no line item
references is unchanged, and the cart is gone. -/
theorem createCashOrder_reconciles (oid userId cartId : String) (st : Store) (cart : Cart)
    (h : st.carts cartId = some cart) :
    (∃ order : Order,
        (createCashOrder oid userId cartId st).1.orders = st.orders ++ [order] ∧
        order.cartItems = cart.cartItems ∧
        (createCashOrder oid userId cartId st).2 = .respond 201 (.orderData "success" order)) ∧
    (∀ P : String,
        (createCashOrder oid userId cartId st).1.products P =
          (st.products P).map (fun p =>
            { p with quantity := p.quantity - orderedQuantity P cart.cartItems
                     sold := p.sold + orderedQuantity P cart.cartItems })) ∧
    (∀ P : String, (∀ i ∈ cart.cartItems, i.product ≠ P) →
        (createCashOrder oid userId cartId st).1.products P = st.products P) ∧
    (createCashOrder oid userId cartId st).1.carts cartId = none := by
  have hp : ∀ P : String,
      (createCashOrder oid userId cartId st).1.products P =
        (st.products P).map (fun p =>
          { p with quantity := p.quantity - orderedQuantity P cart.cartItems
                   sold := p.sold + orderedQuantity P cart.cartItems }) := by
    intro P
    simp only [createCashOrder, h]
    exact bulkWrite_apply cart.cartItems st.products P
  refine ⟨⟨orderDefaults oid userId cart.cartItems (totalOrderPrice cart), ?_, rfl, ?_⟩,
    hp, ?_, ?_⟩
  · simp [createCashOrder, h]
  · simp [createCashOrder, h]
  · intro P hno
    have hz : orderedQuantity P cart.cartItems = 0 := by
      have hf : cart.cartItems.filter (fun i => decide (i.product = P)) = [] := by
        rw [List.filter_eq_nil_iff]
        intro i hi
        simpa using hno i hi
      simp [orderedQuantity, hf]
    rw [hp P, hz]
    cases st.products P <;> simp
  · simp [createCashOrder, h, findByIdAndDelete]

/-- The example of C1: the cart `[(P1, 2), (P2, 1)]` takes `P1` from 10 in stock
and 0 sold to 8 and 2, `P2` from 5 and 3 to 4 and 4, leaves `P3` alone, the
cart `c1` is gone and the order answered has total 25. -/
theorem createCashOrder_reconciles_witness :
    demoStore.carts "c1" = some demoCart ∧
    (createCashOrder "o1" "u1" "c1" demoStore).1.products "P1"
      = some (mkProduct "shirt" 10 8 2) ∧
    (createCashOrder "o1" "u1" "c1" demoStore).1.products "P2"
      = some (mkProduct "cap" 5 4 4) ∧
    (createCashOrder "o1" "u1" "c1" demoStore).1.products "P3"
      = some (mkProduct "belt" 7 4 1) ∧
    (createCashOrder "o1" "u1" "c1" demoStore).1.carts "c1" = none ∧
    (createCashOrder "o1" "u1" "c1" demoStore).2 =
      .respond 201 (.orderData "success" (orderDefaults "o1" "u1" demoCart.cartItems 25)) := by
  have hc : demoStore.carts "c1" = some demoCart := rfl
  have t := createCashOrder_reconciles "o1" "u1" "c1" demoStore demoCart hc
  have ht : totalOrderPrice demoCart = 25 := by
    rw [totalOrderPrice_eq]; simp [demoCart]
  refine ⟨hc, ?_, ?_, ?_, t.2.2.2, by simp [createCashOrder, hc, ht]⟩
  · rw [t.2.1 "P1"]
    simp [demoStore, demoCart, mkProduct, orderedQuantity]
  · rw [t.2.1 "P2"]
    simp [demoStore, demoCart, mkProduct, orderedQuantity]
  · rw [t.2.2.1 "P3" (by simp [demoCart])]
    simp [demoStore]

/-- C2. On a cart whose discounted total is present and equal to 0, with an
undiscounted total of 100, `createCashOrder` creates an order of total 100 and
`checkoutSession` records a total price of 100: the discounted total 0 is
taken for an absent one. -/
theorem totalOrderPrice_zero_discount :
    freeStore.carts "c2" = some freeCart ∧
    freeCart.totalPriceAfterDiscount = some 0 ∧
    totalOrderPrice freeCart = 100 ∧
    (createCashOrder "o1" "u1" "c2" freeStore).2 =
      .respond 201 (.orderData "success" (orderDefaults "o1" "u1" freeCart.cartItems 100)) ∧
    (checkoutSession demoCreate (demoRequest "c2") freeStore).2.map (fun p => p.totalPrice)
      = some 100 := by
  have ht : totalOrderPrice freeCart = 100 := by
    rw [totalOrderPrice_eq]; simp [freeCart]
  have hc : freeStore.carts "c2" = some freeCart := rfl
  refine ⟨hc, rfl, ht, ?_, ?_⟩
  · simp [createCashOrder, hc, ht]
  · have hl : lineItems freeStore.products freeCart.cartItems =
        some [lineItem (mkProduct "shirt" 10 10 0) ⟨"P1", 1, 100⟩] := rfl
    simp [checkoutSession, demoRequest, hc, hl, ht]

/-- C3. When no cart has the given id, `createCashOrder` leaves the store as it
was (orders, products and carts included), gives no answer with a status
code, 201 in particular, and hands an error to `next` instead. -/
theorem createCashOrder_missing_cart (oid userId cartId : String) (st : Store)
    (h : st.carts cartId = none) :
    (createCashOrder oid userId cartId st).1 = st ∧
    (createCashOrder oid userId cartId st).1.orders = st.orders ∧
    (createCashOrder oid userId cartId st).1.products = st.products ∧
    (createCashOrder oid userId cartId st).1.carts = st.carts ∧
    (createCashOrder oid userId cartId st).2.status? ≠ some 201 ∧
    (createCashOrder oid userId cartId st).2.status? = none ∧
    (createCashOrder oid userId cartId st).2.error?.isSome = true := by
  simp [createCashOrder, h, Outcome.status?, Outcome.error?]

/-- The example of C3: `demoStore` has no cart `zz`. -/
theorem createCashOrder_missing_cart_witness :
    demoStore.carts "zz" = none ∧
    (createCashOrder "o1" "u1" "zz" demoStore).1 = demoStore ∧
    (createCashOrder "o1" "u1" "zz" demoStore).2.status? = none :=
  have t := createCashOrder_missing_cart "o1" "u1" "zz" demoStore rfl
  ⟨rfl, t.1, t.2.2.2.2.2.1⟩

/-- C4. For an id `zz` that no cart and no order has, the error that
`createCashOrder`, `updateOrderToPaid` and `updateOrderToDelivered` hand to
`next` names the id and has no status code, 404 being a second argument of
`next`; the error of `checkoutSession` names the id and has status code 404. -/
theorem notFound_statusCode :
    (createCashOrder "o1" "u1" "zz" demoStore).2 =
      .next { message := "No Cart found with Id: zz", statusCode := none } [404] ∧
    (updateOrderToPaid 7 "zz" demoStore).2 =
      .next { message := "No Order found with Id: zz", statusCode := none } [404] ∧
    (updateOrderToDelivered 7 "zz" demoStore).2 =
      .next { message := "No Order found with Id: zz", statusCode := none } [404] ∧
    (checkoutSession demoCreate (demoRequest "zz") demoStore).1 =
      .next { message := "No such cart with id: zz", statusCode := some 404 } [] := by
  refine ⟨?_, ?_, ?_, ?_⟩ <;> decide

/-! ## Card checkout and the webhook -/

/-- In `orderService.js` the identifier `UserModel` is not bound, so
`createCardOrder` logs the `ReferenceError` and leaves the store as it was. -/
theorem createCardOrder_eq (oid : String) (now : Nat) (session : Session) (st : Store) :
    createCardOrder oid now session st =
      (st, ["Error creating card order: UserModel is not defined"]) := by
  have hs : ¬ "UserModel" ∈ orderServiceScope := by decide
  simp [createCardOrder, createCardOrderIn, hs]

/-- In a module that binds `UserModel`, a session whose cart and user exist
gives a paid card order of the confirmed amount, the stock update of cash
checkout and the deletion of the cart. -/
theorem createCardOrderIn_bound (scope : List String) (hs : "UserModel" ∈ scope)
    (oid : String) (now : Nat) (session : Session) (st : Store) (cart : Cart) (user : User)
    (hc : st.carts session.client_reference_id = some cart)
    (hu : st.users.find? (fun u => decide (u.email = session.customer_email)) = some user) :
    (createCardOrderIn scope oid now session st).1.orders =
      st.orders ++ [{ _id := oid, user := user._id, cartItems := cart.cartItems,
                      shippingAddress := session.metadata,
                      totalOrderPrice := binary64 (binary64 session.amount_total / 100),
                      paymentMethodType := "card", isPaid := true, paidAt := some now,
                      isDelivered := false, deliveredAt := none }] ∧
    (createCardOrderIn scope oid now session st).1.products =
      bulkWrite st.products cart.cartItems ∧
    (createCardOrderIn scope oid now session st).1.carts session.client_reference_id = none := by
  simp [createCardOrderIn, hs, hc, hu, orderDefaults, findByIdAndDelete]

/-- Whatever the module binds, a second run of the body of `createCardOrder`
on the same session changes neither the products nor the orders. -/
theorem createCardOrderIn_again (scope : List String) (oid1 oid2 : String) (now1 now2 : Nat)
    (session : Session) (st : Store) :
    (createCardOrderIn scope oid2 now2 session
        (createCardOrderIn scope oid1 now1 session st).1).1 =
      (createCardOrderIn scope oid1 now1 session st).1 := by
  by_cases hs : "UserModel" ∈ scope
  · cases hc : st.carts session.client_reference_id with
    | none => simp [createCardOrderIn, hs, hc]
    | some cart =>
        cases hu : st.users.find? (fun u => decide (u.email = session.customer_email)) with
        | none => simp [createCardOrderIn, hs, hc, hu]
        | some user => simp [createCardOrderIn, hs, hc, hu, findByIdAndDelete]
  · simp [createCardOrderIn, hs]

/-- C5. The handler `webhookCheckout` answers 400 exactly when the signature
check throws, and then calls nothing, logs nothing and leaves the store as it
was; otherwise it answers 200 with `received: true`. On a verified event of
type `checkout.session.completed` it calls `createCardOrder` on the session of
the event: the store and the log afterwards are those that `createCardOrder`
leaves. On a verified event of another type it calls nothing, logs nothing and
leaves the store as it was. So `createCardOrder` is called exactly when the
check succeeds with an event of that type. -/
theorem webhookCheckout_spec
    (constructEvent : String → Option String → String → Except String Event)
    (secret oid : String) (now : Nat) (body : String) (sig : Option String) (st : Store) :
    ((webhookCheckout constructEvent secret oid now body sig st).outcome.status? = some 400 ↔
      ∃ msg, constructEvent body sig secret = .error msg) ∧
    (∀ msg, constructEvent body sig secret = .error msg →
      (webhookCheckout constructEvent secret oid now body sig st).outcome =
          .respond 400 (.text ("Webhook Error: " ++ msg)) ∧
      (webhookCheckout constructEvent secret oid now body sig st).reconciled = [] ∧
      (webhookCheckout constructEvent secret oid now body sig st).log = [] ∧
      (webhookCheckout constructEvent secret oid now body sig st).store = st) ∧
    (∀ event, constructEvent body sig secret = .ok event →
      (webhookCheckout constructEvent secret oid now body sig st).outcome =
          .respond 200 (.received true) ∧
      (event.type = "checkout.session.completed" →
        (webhookCheckout constructEvent secret oid now body sig st).reconciled
          = [event.object] ∧
        (webhookCheckout constructEvent secret oid now body sig st).store
          = (createCardOrder oid now event.object st).1 ∧
        (webhookCheckout constructEvent secret oid now body sig st).log
          = (createCardOrder oid now event.object st).2) ∧
      (event.type ≠ "checkout.session.completed" →
        (webhookCheckout constructEvent secret oid now body sig st).reconciled = [] ∧
        (webhookCheckout constructEvent secret oid now body sig st).log = [] ∧
        (webhookCheckout constructEvent secret oid now body sig st).store = st)) ∧
    ((webhookCheckout constructEvent secret oid now body sig st).reconciled ≠ [] ↔
      ∃ event, constructEvent body sig secret = .ok event ∧
        event.type = "checkout.session.completed") ∧
    ((webhookCheckout constructEvent secret oid now body sig st).reconciled = [] →
      (webhookCheckout constructEvent secret oid now body sig st).store = st ∧
      (webhookCheckout constructEvent secret oid now body sig st).log = []) := by
  cases h : constructEvent body sig secret with
  | error msg => simp [webhookCheckout, h, Outcome.status?]
  | ok event =>
      by_cases ht : event.type = "checkout.session.completed"
      · simp [webhookCheckout, h, ht, Outcome.status?]
      · simp [webhookCheckout, h, ht, Outcome.status?]

/-- The examples of C5 on `demoStore`: a bad signature is answered 400, a
verified event of another type and a verified completed session are answered
200, and only the last reaches `createCardOrder`, whose log line is the log of
the handler. -/
theorem webhookCheckout_spec_witness :
    (webhookCheckout demoConstructEvent "whsec" "o1" 7 "checkout.session.completed"
        (some "forged") demoStore).outcome.status? = some 400 ∧
    (webhookCheckout demoConstructEvent "whsec" "o1" 7 "checkout.session.completed"
        (some "forged") demoStore).reconciled = [] ∧
    (webhookCheckout demoConstructEvent "whsec" "o1" 7 "payment_intent.created"
        (some "sig-ok") demoStore).outcome = .respond 200 (.received true) ∧
    (webhookCheckout demoConstructEvent "whsec" "o1" 7 "payment_intent.created"
        (some "sig-ok") demoStore).reconciled = [] ∧
    (webhookCheckout demoConstructEvent "whsec" "o1" 7 "payment_intent.created"
        (some "sig-ok") demoStore).log = [] ∧
    (webhookCheckout demoConstructEvent "whsec" "o1" 7 "checkout.session.completed"
        (some "sig-ok") demoStore).outcome = .respond 200 (.received true) ∧
    (webhookCheckout demoConstructEvent "whsec" "o1" 7 "checkout.session.completed"
        (some "sig-ok") demoStore).reconciled = [demoSession] ∧
    (webhookCheckout demoConstructEvent "whsec" "o1" 7 "checkout.session.completed"
        (some "sig-ok") demoStore).log
      = ["Error creating card order: UserModel is not defined"] := by
  have bad := webhookCheckout_spec demoConstructEvent "whsec" "o1" 7
    "checkout.session.completed" (some "forged") demoStore
  have other := webhookCheckout_spec demoConstructEvent "whsec" "o1" 7
    "payment_intent.created" (some "sig-ok") demoStore
  have done := webhookCheckout_spec demoConstructEvent "whsec" "o1" 7
    "checkout.session.completed" (some "sig-ok") demoStore
  have e1 : demoConstructEvent "checkout.session.completed" (some "forged") "whsec" =
      .error "No signatures found matching the expected signature for payload" := rfl
  have e2 : demoConstructEvent "payment_intent.created" (some "sig-ok") "whsec" =
      .ok { type := "payment_intent.created", object := demoSession } := rfl
  have e3 : demoConstructEvent "checkout.session.completed" (some "sig-ok") "whsec" =
      .ok { type := "checkout.session.completed", object := demoSession } := rfl
  have hlog := ((done.2.2.1 _ e3).2.1 rfl).2.2
  rw [createCardOrder_eq] at hlog
  exact ⟨bad.1.mpr ⟨_, e1⟩, (bad.2.1 _ e1).2.1, (other.2.2.1 _ e2).1,
    ((other.2.2.1 _ e2).2.2 (by decide)).1, ((other.2.2.1 _ e2).2.2 (by decide)).2.1,
    (done.2.2.1 _ e3).1, ((done.2.2.1 _ e3).2.1 rfl).1, hlog⟩

/-- C6. On `demoStore`, where the cart `c1` and the user with the e-mail of
the session exist, `createCardOrder` creates no order, changes no product and
keeps the cart: it only logs that `UserModel` is not defined. -/
theorem createCardOrder_creates_nothing :
    demoStore.carts demoSession.client_reference_id = some demoCart ∧
    demoStore.users.find? (fun u => decide (u.email = demoSession.customer_email))
      = some ⟨"u1", "ann@example.com", "user"⟩ ∧
    (createCardOrder "o1" 7 demoSession demoStore).1.orders = [] ∧
    (createCardOrder "o1" 7 demoSession demoStore).1.products "P1"
      = some (mkProduct "shirt" 10 10 0) ∧
    (createCardOrder "o1" 7 demoSession demoStore).1.carts "c1" = some demoCart ∧
    (createCardOrder "o1" 7 demoSession demoStore).2
      = ["Error creating card order: UserModel is not defined"] := by
  rw [createCardOrder_eq]
  exact ⟨rfl, rfl, rfl, rfl, rfl, rfl⟩

/-- C7. Running `createCardOrder` twice in sequence on the same session leaves
the products and the orders as one run leaves them; the same holds for the
body of the function in a module that binds `UserModel`, where the first run
deletes the cart and the second finds none. -/
theorem createCardOrder_redelivery (oid1 oid2 : String) (now1 now2 : Nat)
    (session : Session) (st : Store) :
    ((createCardOrder oid2 now2 session (createCardOrder oid1 now1 session st).1).1.products =
        (createCardOrder oid1 now1 session st).1.products ∧
      (createCardOrder oid2 now2 session (createCardOrder oid1 now1 session st).1).1.orders =
        (createCardOrder oid1 now1 session st).1.orders) ∧
    ∀ scope : List String,
      (createCardOrderIn scope oid2 now2 session
          (createCardOrderIn scope oid1 now1 session st).1).1.products =
        (createCardOrderIn scope oid1 now1 session st).1.products ∧
      (createCardOrderIn scope oid2 now2 session
          (createCardOrderIn scope oid1 now1 session st).1).1.orders =
        (createCardOrderIn scope oid1 now1 session st).1.orders := by
  refine ⟨?_, fun scope => ?_⟩
  · have h := createCardOrderIn_again orderServiceScope oid1 oid2 now1 now2 session st
    simp only [createCardOrder, h, and_self]
  · rw [createCardOrderIn_again]
    exact ⟨rfl, rfl⟩

/-- The example of C7 in a module that binds `UserModel`: the first run takes
`P1` from 10 in stock to 8 and creates one order, and after the second run
`P1` is still at 8 and there is still one order. -/
theorem createCardOrder_redelivery_witness :
    (createCardOrderIn ("UserModel" :: orderServiceScope) "o1" 7 demoSession
        demoStore).1.products "P1" = some (mkProduct "shirt" 10 8 2) ∧
    (createCardOrderIn ("UserModel" :: orderServiceScope) "o2" 8 demoSession
        (createCardOrderIn ("UserModel" :: orderServiceScope) "o1" 7 demoSession
          demoStore).1).1.products "P1" = some (mkProduct "shirt" 10 8 2) ∧
    (createCardOrderIn ("UserModel" :: orderServiceScope) "o2" 8 demoSession
        (createCardOrderIn ("UserModel" :: orderServiceScope) "o1" 7 demoSession
          demoStore).1).1.orders.length = 1 := by
  have t := (createCardOrder_redelivery "o1" "o2" 7 8 demoSession demoStore).2
    ("UserModel" :: orderServiceScope)
  have hb := createCardOrderIn_bound ("UserModel" :: orderServiceScope)
    (List.mem_cons_self _ _) "o1" 7 demoSession demoStore demoCart
    ⟨"u1", "ann@example.com", "user"⟩ rfl rfl
  have h1 : (createCardOrderIn ("UserModel" :: orderServiceScope) "o1" 7 demoSession
      demoStore).1.products "P1" = some (mkProduct "shirt" 10 8 2) := by
    rw [hb.2.1, bulkWrite_apply]
    simp [demoStore, demoCart, mkProduct, orderedQuantity]
  refine ⟨h1, ?_, ?_⟩
  · rw [t.1]; exact h1
  · rw [t.2, hb.1]; rfl

/-! ## Status transitions -/

/-- A document found under an id has that id. -/
theorem findOrder_id (orders : List Order) (id : String) (o : Order)
    (h : findOrder orders id = some o) : o._id = id := by
  have := List.find?_some h
  simpa using this

/-- Looking an order up after `save`: the saved document under its own id when
a document with that id was stored, the former answer otherwise. -/
theorem findOrder_saveOrder (u : Order) (orders : List Order) (j : String) :
    findOrder (saveOrder u orders) j =
      if j = u._id ∧ (findOrder orders u._id).isSome then some u else findOrder orders j := by
  induction orders with
  | nil => simp [saveOrder, findOrder]
  | cons o rest ih =>
      unfold findOrder at ih
      by_cases ho : o._id = u._id
      · by_cases hj : j = u._id
        · subst hj
          simp [saveOrder, findOrder, ho]
        · have hj2 : ¬ u._id = j := fun e => hj e.symm
          simp [saveOrder, findOrder, ho, hj, hj2]
      · by_cases hj : o._id = j
        · have hj3 : ¬ j = u._id := fun e => ho (hj.trans e)
          simp [saveOrder, findOrder, ho, hj, hj3]
        · simp [saveOrder, findOrder, ho, hj, ih]

/-- One status operation keeps every stored order and can only raise its flags:
`pay` raises `isPaid` of the order it names, `deliver` raises `isDelivered`. -/
theorem StatusOp.run_find (op : StatusOp) (st : Store) (id : String) (o : Order)
    (h : findOrder st.orders id = some o) :
    ∃ o2 : Order, findOrder (op.run st).orders id = some o2 ∧
      o2.isPaid = (o.isPaid || paysOrder id [op]) ∧
      o2.isDelivered = (o.isDelivered || deliversOrder id [op]) := by
  cases op with
  | pay now j =>
      cases hj : findOrder st.orders j with
      | none =>
          have hne : ¬ j = id := by
            intro e; subst e; rw [h] at hj; cases hj
          exact ⟨o, by simp [StatusOp.run, updateOrderToPaid, hj, h],
            by simp [paysOrder, hne], by simp [deliversOrder]⟩
      | some oj =>
          have hid := findOrder_id _ _ _ hj
          by_cases e : j = id
          · subst e
            have ho : oj = o := by rw [h] at hj; cases hj; rfl
            subst ho
            refine ⟨{ oj with isPaid := true, paidAt := some now }, ?_, ?_, ?_⟩
            · simp [StatusOp.run, updateOrderToPaid, hj, findOrder_saveOrder, hid]
            · simp [paysOrder]
            · simp [deliversOrder]
          · have e2 : ¬ id = j := fun x => e x.symm
            refine ⟨o, ?_, ?_, ?_⟩
            · simp [StatusOp.run, updateOrderToPaid, hj, findOrder_saveOrder, hid, e2, h]
            · simp [paysOrder, e]
            · simp [deliversOrder]
  | deliver now j =>
      cases hj : findOrder st.orders j with
      | none =>
          have hne : ¬ j = id := by
            intro e; subst e; rw [h] at hj; cases hj
          exact ⟨o, by simp [StatusOp.run, updateOrderToDelivered, hj, h],
            by simp [paysOrder], by simp [deliversOrder, hne]⟩
      | some oj =>
          have hid := findOrder_id _ _ _ hj
          by_cases e : j = id
          · subst e
            have ho : oj = o := by rw [h] at hj; cases hj; rfl
            subst ho
            refine ⟨{ oj with isDelivered := true, deliveredAt := some now }, ?_, ?_, ?_⟩
            · simp [StatusOp.run, updateOrderToDelivered, hj, findOrder_saveOrder, hid]
            · simp [paysOrder]
            · simp [deliversOrder]
          · have e2 : ¬ id = j := fun x => e x.symm
            refine ⟨o, ?_, ?_, ?_⟩
            · simp [StatusOp.run, updateOrderToDelivered, hj, findOrder_saveOrder, hid, e2, h]
            · simp [paysOrder]
            · simp [deliversOrder, e]

/-- After a sequence of status operations a stored order is still stored, paid
when it was paid or an operation paid it, delivered when it was delivered or
an operation delivered it. -/
theorem runStatusOps_find (ops : List StatusOp) (st : Store) (id : String) (o : Order)
    (h : findOrder st.orders id = some o) :
    ∃ o2 : Order, findOrder (runStatusOps ops st).orders id = some o2 ∧
      o2.isPaid = (o.isPaid || paysOrder id ops) ∧
      o2.isDelivered = (o.isDelivered || deliversOrder id ops) := by
  induction ops generalizing st o with
  | nil => exact ⟨o, h, by simp [paysOrder], by simp [deliversOrder]⟩
  | cons op rest ih =>
      obtain ⟨o1, h1, p1, d1⟩ := StatusOp.run_find op st id o h
      obtain ⟨o2, h2, p2, d2⟩ := ih (op.run st) o1 h1
      refine ⟨o2, h2, ?_, ?_⟩
      · rw [p2, p1]
        simp [paysOrder, List.any_cons, Bool.or_assoc]
      · rw [d2, d1]
        simp [deliversOrder, List.any_cons, Bool.or_assoc]

/-- C8, as stated, fails: the order `o1` created by cash checkout is delivered
and not paid after one call of `updateOrderToDelivered`. -/
theorem delivered_unpaid_counterexample :
    (findOrder cashStore.orders "o1").map (fun o => (o.isPaid, o.isDelivered))
      = some (false, false) ∧
    (findOrder (updateOrderToDelivered 9 "o1" cashStore).1.orders "o1").map
        (fun o => (o.isPaid, o.isDelivered)) = some (false, true) := by
  constructor <;> rfl

/-- C8, amended. After any finite sequence of `updateOrderToPaid` and
`updateOrderToDelivered` a stored order is still stored; it is paid exactly
when it was paid before or some `updateOrderToPaid` of the sequence named it,
and delivered exactly when it was delivered before or some
`updateOrderToDelivered` named it, so neither flag ever falls back; an order
that was paid from the start, as a card order is, is never delivered while
unpaid. -/
theorem status_flags_monotone (ops : List StatusOp) (st : Store) (id : String) (o : Order)
    (h : findOrder st.orders id = some o) :
    ∃ o2 : Order, findOrder (runStatusOps ops st).orders id = some o2 ∧
      o2.isPaid = (o.isPaid || paysOrder id ops) ∧
      o2.isDelivered = (o.isDelivered || deliversOrder id ops) ∧
      (o.isPaid = true → o2.isPaid = true) ∧
      (o.isDelivered = true → o2.isDelivered = true) ∧
      (o.isPaid = true → ¬ (o2.isDelivered = true ∧ o2.isPaid = false)) := by
  obtain ⟨o2, h2, p2, d2⟩ := runStatusOps_find ops st id o h
  refine ⟨o2, h2, p2, d2, ?_, ?_, ?_⟩
  · intro hp; simp [p2, hp]
  · intro hd; simp [d2, hd]
  · intro hp; simp [p2, hp]

/-- The example of C8: the order `o2`, created paid, is paid and delivered
after it is marked delivered and then marked paid again. -/
theorem status_flags_monotone_witness :
    (findOrder cardStore.orders "o2").map (fun o => (o.isPaid, o.isDelivered))
      = some (true, false) ∧
    ∃ o2 : Order,
      findOrder (runStatusOps [.deliver 5 "o2", .pay 6 "o2"] cardStore).orders "o2" = some o2 ∧
      o2.isPaid = true ∧ o2.isDelivered = true := by
  refine ⟨rfl, ?_⟩
  obtain ⟨o2, h2, p2, d2, -⟩ :=
    status_flags_monotone [.deliver 5 "o2", .pay 6 "o2"] cardStore "o2" _ rfl
  exact ⟨o2, h2, by rw [p2]; rfl, by rw [d2]; rfl⟩

/-! ## Rounding to binary64 -/

/-- An integer is its own nearest integer. -/
theorem roundHalfEven_intCast (z : Int) : roundHalfEven (z : Rat) = z := by
  simp [roundHalfEven]

/-- A number at most an integer rounds to at most that integer. -/
theorem roundHalfEven_le (x : Rat) (K : Int) (h : x ≤ K) : roundHalfEven x ≤ K := by
  have hf : Int.floor x ≤ K := by
    have h2 : ((Int.floor x : Int) : Rat) ≤ K := le_trans (Int.floor_le x) h
    exact_mod_cast h2
  unfold roundHalfEven
  by_cases hx : x = K
  · subst hx
    simp
  · have hlt : x < K := lt_of_le_of_ne h hx
    have hf1 : Int.floor x + 1 ≤ K := by
      have : Int.floor x < K := Int.floor_lt.mpr hlt
      omega
    split_ifs <;> omega

/-- A number more than a half above an integer rounds above that integer. -/
theorem roundHalfEven_gt (x : Rat) (Y : Int) (h : (Y : Rat) + 1 / 2 < x) :
    Y + 1 ≤ roundHalfEven x := by
  have hY : Y ≤ Int.floor x := Int.le_floor.mpr (by linarith)
  unfold roundHalfEven
  by_cases hf : Int.floor x = Y
  · have h1 : ¬ (x - Int.floor x < 1 / 2) := by
      rw [hf]; linarith
    have h2 : 1 / 2 < x - Int.floor x := by
      rw [hf]; linarith
    simp only [h1, h2, if_false, if_true]
    omega
  · have : Y + 1 ≤ Int.floor x := by omega
    split_ifs <;> omega

/-- The binary logarithm of a number between two successive powers of two. -/
theorem log_two_eq (q : Rat) (e : Int) (hq : 0 < q) (h1 : (2 : Rat) ^ e ≤ q)
    (h2 : q < (2 : Rat) ^ (e + 1)) : Int.log 2 q = e := by
  have a : e ≤ Int.log 2 q := by
    rw [← Int.zpow_le_iff_le_log (by norm_num) hq]
    simpa using h1
  have b : Int.log 2 q < e + 1 := by
    rw [← Int.lt_zpow_iff_log_lt (by norm_num) hq]
    simpa using h2
  omega

/-- The binade of a number of the normal range between two successive powers
of two. -/
theorem binade_eq (q : Rat) (e : Int) (hq : 0 < |q|) (h1 : (2 : Rat) ^ e ≤ |q|)
    (h2 : |q| < (2 : Rat) ^ (e + 1)) (he : -1022 ≤ e) : binade q = e := by
  unfold binade
  rw [log_two_eq |q| e hq h1 h2]
  exact max_eq_left he

/-- A number that is a multiple of the quantum of its binade is its own binary64 value. -/
theorem binary64_exact (q : Rat) (m : Int) (hm : |q| = (m : Rat) * (2 : Rat) ^ (binade q - 52)) :
    binary64 q = q := by
  have hpos : (0 : Rat) < (2 : Rat) ^ (binade q - 52) := zpow_pos (by norm_num) _
  unfold binary64
  by_cases h0 : q = 0
  · simp [h0]
  · have hdiv : |q| / (2 : Rat) ^ (binade q - 52) = (m : Rat) := by
      rw [hm]; field_simp
    rw [if_neg h0, hdiv, roundHalfEven_intCast, ← hm]
    by_cases hneg : q < 0
    · rw [if_pos hneg, abs_of_neg hneg]; ring
    · rw [if_neg hneg, abs_of_nonneg (not_lt.mp hneg)]

/-- Every integer of absolute value at most `2 ^ 53` is a binary64 value. -/
theorem binary64_intCast (z : Int) (hz : |z| ≤ 2 ^ 53) : binary64 (z : Rat) = z := by
  by_cases h0 : z = 0
  · simp [h0, binary64]
  have habs : (0 : Rat) < |(z : Rat)| := abs_pos.mpr (by exact_mod_cast h0)
  have hone : (1 : Rat) ≤ |(z : Rat)| := by
    have : (1 : Int) ≤ |z| := Int.one_le_abs h0
    exact_mod_cast this
  have hlog0 : 0 ≤ Int.log 2 |(z : Rat)| := by
    rw [← Int.zpow_le_iff_le_log (by norm_num) habs]
    simpa using hone
  have hlog1 : Int.log 2 |(z : Rat)| ≤ 53 := by
    have : Int.log 2 |(z : Rat)| < 53 + 1 := by
      rw [← Int.lt_zpow_iff_log_lt (by norm_num) habs]
      have h2 : |(z : Rat)| ≤ 2 ^ 53 := by exact_mod_cast hz
      have h3 : ((2 : ℕ) : Rat) ^ ((53 : Int) + 1) = 2 ^ 54 := by norm_num
      rw [h3]
      linarith [show (2 : Rat) ^ 53 < 2 ^ 54 by norm_num]
    omega
  have hb : binade (z : Rat) = Int.log 2 |(z : Rat)| := by
    unfold binade; exact max_eq_left (by omega)
  by_cases h52 : Int.log 2 |(z : Rat)| ≤ 52
  · obtain ⟨t, ht⟩ : ∃ t : Nat, Int.log 2 |(z : Rat)| - 52 = -(t : Int) :=
      ⟨(52 - Int.log 2 |(z : Rat)|).toNat, by omega⟩
    apply binary64_exact (z : Rat) (|z| * 2 ^ t)
    rw [hb, ht, zpow_neg, zpow_natCast]
    push_cast
    field_simp
  · have h53 : Int.log 2 |(z : Rat)| = 53 := by omega
    have hge : (2 : Rat) ^ (53 : Int) ≤ |(z : Rat)| := by
      have := Int.zpow_log_le_self (b := 2) (by norm_num) habs
      rw [h53] at this
      simpa using this
    have heq : |(z : Rat)| = 2 ^ 53 := by
      apply le_antisymm
      · exact_mod_cast hz
      · have : (2 : Rat) ^ (53 : Int) = 2 ^ 53 := by norm_num
        linarith
    apply binary64_exact (z : Rat) (2 ^ 52)
    rw [hb, h53, heq]
    norm_num

/-- An integer of absolute value at most `2 ^ 53` is rounded to itself. -/
theorem roundBinary64_intCast (z : Int) (hz : |z| ≤ 2 ^ 53) :
    roundBinary64 (z : Rat) = .fin z := by
  unfold roundBinary64
  rw [binary64_intCast z hz]
  have h1 : |(z : Rat)| ≤ 2 ^ 53 := by exact_mod_cast hz
  have h2 : ¬ ((2 : Rat) ^ (1024 : Nat) ≤ |(z : Rat)|) := by
    have : (2 : Rat) ^ 53 < 2 ^ 1024 := by
      apply pow_lt_pow_right₀ (by norm_num) (by norm_num)
    linarith
  rw [if_neg h2]

/-- The quotient of two naturals below `2 ^ 53`, rounded to binary64, has the
ceiling of the exact quotient. -/
theorem roundBinary64_div_ceil (n l : Nat) (hl : 0 < l) (hn : n < 2 ^ 53) (hl2 : l < 2 ^ 53) :
    ∃ r : Rat, roundBinary64 ((n : Rat) / (l : Rat)) = .fin r ∧
      Int.ceil r = Int.ceil ((n : Rat) / (l : Rat)) := by
  have hlq : (0 : Rat) < (l : Rat) := by exact_mod_cast hl
  by_cases hn0 : n = 0
  · refine ⟨0, ?_, ?_⟩
    · subst hn0
      simp [roundBinary64, binary64]
    · subst hn0
      simp
  have hnq : (0 : Rat) < (n : Rat) := by exact_mod_cast Nat.pos_of_ne_zero hn0
  obtain ⟨x, hx⟩ : ∃ x : Rat, x = (n : Rat) / (l : Rat) := ⟨_, rfl⟩
  rw [← hx]
  have hxpos : 0 < x := by rw [hx]; exact div_pos hnq hlq
  have hxabs : |x| = x := abs_of_pos hxpos
  obtain ⟨e, he⟩ : ∃ e : Int, e = Int.log 2 x := ⟨_, rfl⟩
  have h1 : (2 : Rat) ^ e ≤ x := by
    have := Int.zpow_log_le_self (b := 2) (by norm_num) hxpos
    rw [he]
    simpa using this
  have hxn : x ≤ (n : Rat) := by
    rw [hx, div_le_iff₀ hlq]
    have : (1 : Rat) ≤ (l : Rat) := by exact_mod_cast hl
    nlinarith
  have hn53 : (n : Rat) < 2 ^ 53 := by exact_mod_cast hn
  have hle52 : e ≤ 52 := by
    have : Int.log 2 x < 53 := by
      rw [← Int.lt_zpow_iff_log_lt (by norm_num) hxpos]
      have h3 : ((2 : ℕ) : Rat) ^ (53 : Int) = 2 ^ 53 := by norm_num
      rw [h3]
      linarith
    omega
  have hxl : 1 / (l : Rat) ≤ x := by
    rw [hx]
    apply div_le_div_of_nonneg_right _ hlq.le
    exact_mod_cast Nat.one_le_iff_ne_zero.mpr hn0
  have hge : -53 ≤ e := by
    rw [he, ← Int.zpow_le_iff_le_log (by norm_num) hxpos]
    have h3 : ((2 : ℕ) : Rat) ^ (-53 : Int) = 1 / 2 ^ 53 := by norm_num
    rw [h3]
    have : (l : Rat) < 2 ^ 53 := by exact_mod_cast hl2
    have h4 : 1 / (2 : Rat) ^ 53 ≤ 1 / (l : Rat) :=
      one_div_le_one_div_of_le hlq this.le
    linarith
  have hb : binade x = e := by
    unfold binade
    rw [hxabs, ← he]
    exact max_eq_left (by omega)
  obtain ⟨t, ht⟩ : ∃ t : Nat, e = 52 - (t : Int) := ⟨(52 - e).toNat, by omega⟩
  have hTpos : (0 : Rat) < (2 : Rat) ^ t := pow_pos (by norm_num) t
  have hQ : (2 : Rat) ^ (e - 52) = ((2 : Rat) ^ t)⁻¹ := by
    have : e - 52 = -(t : Int) := by omega
    rw [this, zpow_neg, zpow_natCast]
  have hE : (2 : Rat) ^ e = 2 ^ 52 * ((2 : Rat) ^ t)⁻¹ := by
    rw [ht, zpow_sub₀ (by norm_num), zpow_natCast]
    norm_num
    rfl
  have hm : |x| / (2 : Rat) ^ (binade x - 52) = x * 2 ^ t := by
    rw [hb, hQ, hxabs]; field_simp
  obtain ⟨k, hk⟩ : ∃ k : Int, k = Int.ceil x := ⟨_, rfl⟩
  have hxk : x ≤ (k : Rat) := by rw [hk]; exact Int.le_ceil x
  have hkx : ((k : Rat) - 1) < x := by
    have := Int.ceil_lt_add_one x
    rw [hk]
    linarith
  have hkn : (k : Rat) ≤ (n : Rat) := by
    have : k ≤ (n : Int) := by
      rw [hk, Int.ceil_le]
      exact_mod_cast hxn
    exact_mod_cast this
  have hup : roundHalfEven (x * 2 ^ t) ≤ k * 2 ^ t := by
    apply roundHalfEven_le
    push_cast
    nlinarith
  have hgap : 1 / (l : Rat) ≤ x - ((k : Rat) - 1) := by
    have hlt : ((k - 1) * (l : Int) : Int) < (n : Int) := by
      have : (((k - 1) * (l : Int) : Int) : Rat) < ((n : Int) : Rat) := by
        push_cast
        have := (lt_div_iff₀ hlq).mp (hx ▸ hkx)
        linarith
      exact_mod_cast this
    have h5 : ((k - 1) * (l : Int) + 1 : Int) ≤ (n : Int) := by omega
    have h6 : (((k : Rat) - 1) * (l : Rat) + 1) ≤ (n : Rat) := by exact_mod_cast h5
    rw [le_sub_iff_add_le, hx, le_div_iff₀ hlq]
    have : (1 / (l : Rat) + ((k : Rat) - 1)) * (l : Rat) = ((k : Rat) - 1) * (l : Rat) + 1 := by
      field_simp
      ring
    rw [this]
    exact h6
  have hl2t : (l : Rat) < 2 * 2 ^ t := by
    have h7 : (2 : Rat) ^ e * (l : Rat) ≤ (n : Rat) := by
      have := (le_div_iff₀ hlq).mp (hx ▸ h1)
      exact this
    rw [hE] at h7
    have h8 : (2 : Rat) ^ 52 * (l : Rat) ≤ (n : Rat) * 2 ^ t := by
      have h9 : (2 : Rat) ^ 52 * ((2 : Rat) ^ t)⁻¹ * (l : Rat) * 2 ^ t ≤ (n : Rat) * 2 ^ t :=
        mul_le_mul_of_nonneg_right h7 hTpos.le
      have h10 : (2 : Rat) ^ 52 * ((2 : Rat) ^ t)⁻¹ * (l : Rat) * 2 ^ t = 2 ^ 52 * (l : Rat) := by
        field_simp
      linarith
    have h11 : (n : Rat) * 2 ^ t < 2 ^ 53 * 2 ^ t := mul_lt_mul_of_pos_right hn53 hTpos
    have h12 : (2 : Rat) ^ 52 * (l : Rat) < 2 ^ 52 * (2 * 2 ^ t) := by
      have : (2 : Rat) ^ 52 * (2 * 2 ^ t) = 2 ^ 53 * 2 ^ t := by ring
      linarith
    exact lt_of_mul_lt_mul_left h12 (by positivity)
  have hlow : (k - 1) * 2 ^ t + 1 ≤ roundHalfEven (x * 2 ^ t) := by
    apply roundHalfEven_gt
    push_cast
    have h13 : (1 : Rat) / 2 < (1 / (l : Rat)) * 2 ^ t := by
      have h16 : (1 / (l : Rat)) * 2 ^ t = 2 ^ t / (l : Rat) := by ring
      rw [h16, lt_div_iff₀ hlq]
      linarith
    have h14 : (1 / (l : Rat)) * 2 ^ t ≤ (x - ((k : Rat) - 1)) * 2 ^ t :=
      mul_le_mul_of_nonneg_right hgap hTpos.le
    linarith
  have hval : binary64 x = (roundHalfEven (x * 2 ^ t) : Rat) * ((2 : Rat) ^ t)⁻¹ := by
    unfold binary64
    rw [if_neg (ne_of_gt hxpos), if_neg (not_lt.mpr hxpos.le), hm, hb, hQ]
  have hupq : (roundHalfEven (x * 2 ^ t) : Rat) ≤ (k : Rat) * 2 ^ t := by exact_mod_cast hup
  have hlowq : ((k : Rat) - 1) * 2 ^ t + 1 ≤ (roundHalfEven (x * 2 ^ t) : Rat) := by
    exact_mod_cast hlow
  have hr1 : (roundHalfEven (x * 2 ^ t) : Rat) * ((2 : Rat) ^ t)⁻¹ ≤ (k : Rat) := by
    rw [← div_eq_mul_inv, div_le_iff₀ hTpos]
    exact hupq
  have hr2 : (k : Rat) - 1 < (roundHalfEven (x * 2 ^ t) : Rat) * ((2 : Rat) ^ t)⁻¹ := by
    rw [← div_eq_mul_inv, lt_div_iff₀ hTpos]
    linarith
  refine ⟨(roundHalfEven (x * 2 ^ t) : Rat) * ((2 : Rat) ^ t)⁻¹, ?_, ?_⟩
  · unfold roundBinary64
    rw [hval]
    have hk1 : (0 : Rat) ≤ (k : Rat) - 1 := by
      have : (0 : Int) < k := by
        rw [hk]; exact Int.ceil_pos.mpr hxpos
      have h15 : (1 : Int) ≤ k := by omega
      have : (1 : Rat) ≤ (k : Rat) := by exact_mod_cast h15
      linarith
    have hnn : 0 ≤ (roundHalfEven (x * 2 ^ t) : Rat) * ((2 : Rat) ^ t)⁻¹ := by linarith
    rw [abs_of_nonneg hnn]
    have hbig : (2 : Rat) ^ 53 < 2 ^ 1024 := pow_lt_pow_right₀ (by norm_num) (by norm_num)
    rw [if_neg (by linarith)]
  · rw [← hk, Int.ceil_eq_iff]
    exact ⟨hr2, hr1⟩

/-- Zero is rounded to zero. -/
theorem roundBinary64_zero : roundBinary64 0 = .fin 0 := by
  simp [roundBinary64, binary64]

/-- The number `5 / 2` is a binary64 value. -/
theorem roundBinary64_five_halves : roundBinary64 (5 / 2) = .fin (5 / 2) := by
  have hb : binade (5 / 2 : Rat) = 1 := by
    apply binade_eq
    · norm_num
    · norm_num [abs_of_pos]
    · norm_num [abs_of_pos]
    · norm_num
  have hv : binary64 (5 / 2 : Rat) = 5 / 2 := by
    apply binary64_exact (5 / 2 : Rat) (5 * 2 ^ 50)
    rw [hb]
    norm_num [abs_of_pos]
  unfold roundBinary64
  rw [hv]
  have h2 : ¬ ((2 : Rat) ^ (1024 : Nat) ≤ |(5 / 2 : Rat)|) := by
    have hbig : (2 : Rat) ^ 53 < 2 ^ 1024 := pow_lt_pow_right₀ (by norm_num) (by norm_num)
    have : |(5 / 2 : Rat)| < 2 ^ 53 := by norm_num [abs_of_pos]
    linarith
  rw [if_neg h2]

/-- A number at least an integer rounds to at least that integer. -/
theorem le_roundHalfEven (x : Rat) (K : Int) (h : (K : Rat) ≤ x) : K ≤ roundHalfEven x := by
  have hf : K ≤ Int.floor x := Int.le_floor.mpr h
  unfold roundHalfEven
  split_ifs <;> omega

/-- A number from `2 ^ 1024` on is rounded to `Infinity`. -/
theorem roundBinary64_overflow (q : Rat) (h : (2 : Rat) ^ (1024 : Nat) ≤ q) :
    roundBinary64 q = .posInf := by
  have hpos : (0 : Rat) < q := lt_of_lt_of_le (by positivity) h
  have habs : |q| = q := abs_of_pos hpos
  obtain ⟨e, he⟩ : ∃ e : Int, e = Int.log 2 q := ⟨_, rfl⟩
  have h1 : (2 : Rat) ^ e ≤ q := by
    have := Int.zpow_log_le_self (b := 2) (by norm_num) hpos
    rw [he]
    simpa using this
  have hge : 1024 ≤ e := by
    rw [he, ← Int.zpow_le_iff_le_log (by norm_num) hpos]
    have h3 : ((2 : ℕ) : Rat) ^ (1024 : Int) = 2 ^ (1024 : Nat) := by norm_num
    rw [h3]
    exact h
  have hb : binade q = e := by
    unfold binade
    rw [habs, ← he]
    exact max_eq_left (by omega)
  have hQpos : (0 : Rat) < (2 : Rat) ^ (e - 52) := zpow_pos (by norm_num) _
  have hsplit : (2 : Rat) ^ e = 2 ^ (52 : Nat) * (2 : Rat) ^ (e - 52) := by
    rw [← zpow_natCast, ← zpow_add₀ (by norm_num)]
    congr 1
    omega
  have hm : (((2 : Int) ^ (52 : Nat) : Int) : Rat) ≤ q / (2 : Rat) ^ (e - 52) := by
    have hc : (((2 : Int) ^ (52 : Nat) : Int) : Rat) = (2 : Rat) ^ (52 : Nat) := by norm_num
    rw [le_div_iff₀ hQpos, hc, ← hsplit]
    exact h1
  have hr := le_roundHalfEven _ _ hm
  have hrq : ((2 : Rat) ^ (52 : Nat)) ≤ (roundHalfEven (q / (2 : Rat) ^ (e - 52)) : Rat) := by
    have hc : (((2 : Int) ^ (52 : Nat) : Int) : Rat) = (2 : Rat) ^ (52 : Nat) := by norm_num
    rw [← hc]
    exact_mod_cast hr
  have hval : binary64 q
      = (roundHalfEven (q / (2 : Rat) ^ (e - 52)) : Rat) * (2 : Rat) ^ (e - 52) := by
    unfold binary64
    rw [if_neg (ne_of_gt hpos), if_neg (not_lt.mpr hpos.le), habs, hb]
  have hbig : (2 : Rat) ^ e ≤ binary64 q := by
    rw [hval, hsplit]
    exact mul_le_mul_of_nonneg_right hrq hQpos.le
  have h1024 : (2 : Rat) ^ (1024 : Nat) ≤ (2 : Rat) ^ e := by
    rw [← zpow_natCast]
    exact zpow_le_zpow_right₀ (by norm_num) (by exact_mod_cast hge)
  have hfin : (2 : Rat) ^ (1024 : Nat) ≤ |binary64 q| := by
    rw [abs_of_nonneg (le_trans (by positivity) hbig)]
    exact le_trans h1024 hbig
  unfold roundBinary64
  rw [if_pos hfin]
  simp [JSNum.infOf, not_lt.mpr hpos.le]

/-- A positive number below `2 ^ (-1075)` is rounded to zero. -/
theorem roundBinary64_underflow (q : Rat) (hpos : 0 < q) (h : q < (2 : Rat) ^ (-1075 : Int)) :
    roundBinary64 q = .fin 0 := by
  have habs : |q| = q := abs_of_pos hpos
  have hlog : Int.log 2 q < -1075 := by
    rw [← Int.lt_zpow_iff_log_lt (by norm_num) hpos]
    simpa using h
  have hb : binade q = -1022 := by
    unfold binade
    rw [habs]
    exact max_eq_right (by omega)
  have hQpos : (0 : Rat) < (2 : Rat) ^ ((-1022 : Int) - 52) := zpow_pos (by norm_num) _
  have hm1 : q / (2 : Rat) ^ ((-1022 : Int) - 52) < 1 / 2 := by
    rw [div_lt_iff₀ hQpos]
    have : (1 : Rat) / 2 * (2 : Rat) ^ ((-1022 : Int) - 52) = (2 : Rat) ^ (-1075 : Int) := by
      have h2 : ((-1022 : Int) - 52) = (-1075 : Int) + 1 := by norm_num
      rw [h2, zpow_add₀ (by norm_num)]
      norm_num
    rw [this]
    exact h
  have hm0 : 0 ≤ q / (2 : Rat) ^ ((-1022 : Int) - 52) := div_nonneg hpos.le hQpos.le
  have hfl : Int.floor (q / (2 : Rat) ^ ((-1022 : Int) - 52)) = 0 := by
    rw [Int.floor_eq_iff]
    constructor
    · simpa using hm0
    · simp only [Int.cast_zero, zero_add]
      linarith
  have hr : roundHalfEven (q / (2 : Rat) ^ ((-1022 : Int) - 52)) = 0 := by
    unfold roundHalfEven
    rw [hfl]
    simp only [Int.cast_zero, sub_zero]
    rw [if_pos hm1]
  have hval : binary64 q = 0 := by
    unfold binary64
    rw [if_neg (ne_of_gt hpos), if_neg (not_lt.mpr hpos.le), habs, hb, hr]
    simp
  unfold roundBinary64
  rw [hval]
  simp

/-- The sum `2 ^ 53 + 1` lies halfway between two binary64 values and is
rounded to the even one, `2 ^ 53`. -/
theorem roundBinary64_tie : roundBinary64 (9007199254740992 + 1) = .fin 9007199254740992 := by
  have hb : binade (9007199254740992 + 1 : Rat) = 53 := by
    apply binade_eq
    · norm_num
    · norm_num [abs_of_pos]
    · norm_num [abs_of_pos]
    · norm_num
  have hq : |(9007199254740992 + 1 : Rat)| / (2 : Rat) ^ ((53 : Int) - 52)
      = 4503599627370496 + 1 / 2 := by
    norm_num [abs_of_pos]
  have hfl : Int.floor ((4503599627370496 : Rat) + 1 / 2) = 4503599627370496 := by
    rw [Int.floor_eq_iff]
    constructor <;> norm_num
  have hr : roundHalfEven ((4503599627370496 : Rat) + 1 / 2) = 4503599627370496 := by
    unfold roundHalfEven
    rw [hfl]
    norm_num
  have hval : binary64 (9007199254740992 + 1 : Rat) = 9007199254740992 := by
    unfold binary64
    rw [if_neg (by norm_num), if_neg (by norm_num), hb, hq, hr]
    norm_num
  unfold roundBinary64
  rw [hval]
  have h2 : ¬ ((2 : Rat) ^ (1024 : Nat) ≤ |(9007199254740992 : Rat)|) := by
    have hbig : (2 : Rat) ^ 54 < 2 ^ 1024 := pow_lt_pow_right₀ (by norm_num) (by norm_num)
    have : |(9007199254740992 : Rat)| < 2 ^ 54 := by norm_num [abs_of_pos]
    linarith
  rw [if_neg h2]

/-- The even number `2 ^ 53 + 2` is a binary64 value. -/
theorem roundBinary64_even : roundBinary64 9007199254740994 = .fin 9007199254740994 := by
  have hb : binade (9007199254740994 : Rat) = 53 := by
    apply binade_eq
    · norm_num
    · norm_num [abs_of_pos]
    · norm_num [abs_of_pos]
    · norm_num
  have hv : binary64 (9007199254740994 : Rat) = 9007199254740994 := by
    apply binary64_exact (9007199254740994 : Rat) 4503599627370497
    rw [hb]
    norm_num [abs_of_pos]
  unfold roundBinary64
  rw [hv]
  have h2 : ¬ ((2 : Rat) ^ (1024 : Nat) ≤ |(9007199254740994 : Rat)|) := by
    have hbig : (2 : Rat) ^ 54 < 2 ^ 1024 := pow_lt_pow_right₀ (by norm_num) (by norm_num)
    have : |(9007199254740994 : Rat)| < 2 ^ 54 := by norm_num [abs_of_pos]
    linarith
  rw [if_neg h2]

/-! ## Pagination -/

/-- The coercion of a decimal literal without sign, fraction and exponent that
denotes a natural number up to `2 ^ 53`. -/
theorem toJSNum_nat (mant : Nat) (h : mant ≤ 2 ^ 53) :
    (StrNum.dec false mant 0).toJSNum = .fin (mant : Rat) := by
  have hz : |(mant : Int)| ≤ 2 ^ 53 := by
    rw [abs_of_nonneg (Int.natCast_nonneg mant)]
    exact_mod_cast h
  have := roundBinary64_intCast (mant : Int) hz
  simpa [StrNum.toJSNum] using this

/-- The coercion of the string `-3`. -/
theorem Number_neg_three : Number (some (.str "-3")) = .fin (-3) := by
  have h : parseNumber "-3" = .dec true 3 0 := by decide
  have hr := roundBinary64_intCast (-3) (by norm_num)
  simp only [Number, QValue.toStr, h, StrNum.toJSNum]
  norm_num at hr ⊢
  exact hr

/-- The coercion of the string `2.5`. -/
theorem Number_two_and_half : Number (some (.str "2.5")) = .fin (5 / 2) := by
  have h : parseNumber "2.5" = .dec false 25 (-1) := by decide
  have hr := roundBinary64_five_halves
  simp only [Number, QValue.toStr, h, StrNum.toJSNum]
  norm_num at hr ⊢
  exact hr

/-- The coercion of the string `0`. -/
theorem Number_zero : Number (some (.str "0")) = .fin 0 := by
  have h : parseNumber "0" = .dec false 0 0 := by decide
  simp only [Number, QValue.toStr, h]
  simpa using toJSNum_nat 0 (by norm_num)

/-- The coercion of the string `20`. -/
theorem Number_twenty : Number (some (.str "20")) = .fin 20 := by
  have h : parseNumber "20" = .dec false 20 0 := by decide
  simp only [Number, QValue.toStr, h]
  simpa using toJSNum_nat 20 (by norm_num)

/-- The coercion of the string `1`. -/
theorem Number_one : Number (some (.str "1")) = .fin 1 := by
  have h : parseNumber "1" = .dec false 1 0 := by decide
  simp only [Number, QValue.toStr, h]
  simpa using toJSNum_nat 1 (by norm_num)

/-- The coercion of the string `9007199254740992`, which is `2 ^ 53`. -/
theorem Number_two_pow_53 :
    Number (some (.str "9007199254740992")) = .fin 9007199254740992 := by
  have h : parseNumber "9007199254740992" = .dec false 9007199254740992 0 := by decide
  simp only [Number, QValue.toStr, h]
  simpa using toJSNum_nat 9007199254740992 (by norm_num)

/-- The coercion of the string `1e400` overflows to `Infinity`. -/
theorem Number_overflow : Number (some (.str "1e400")) = .posInf := by
  have h : parseNumber "1e400" = .dec false 1 400 := by decide
  have ht : Int.toNat 400 = 400 := by decide
  simp only [Number, QValue.toStr, h, StrNum.toJSNum]
  apply roundBinary64_overflow
  norm_num [ht]

/-- The coercion of the string `1e-400` underflows to zero. -/
theorem Number_underflow : Number (some (.str "1e-400")) = .fin 0 := by
  have h : parseNumber "1e-400" = .dec false 1 (-400) := by decide
  have ht : Int.toNat 400 = 400 := by decide
  simp only [Number, QValue.toStr, h, StrNum.toJSNum]
  apply roundBinary64_underflow
  · norm_num [ht]
  · norm_num [ht]

/-- A truthy number is neither `NaN` nor zero. -/
theorem truthy_ne (a : JSNum) (h : a.truthy = true) : a ≠ .nan ∧ a ≠ .fin 0 := by
  cases a <;> simp_all [JSNum.truthy]

/-- The quotient of two naturals below `2 ^ 53`, as `/` computes it, has the
ceiling of the exact quotient. -/
theorem div_ceil_nat (n l : Nat) (hl : 0 < l) (hn : n < 2 ^ 53) (hl2 : l < 2 ^ 53) :
    ((JSNum.fin (n : Rat)).div (.fin (l : Rat))).ceil
      = .fin ((Int.ceil ((n : Rat) / (l : Rat)) : Int) : Rat) := by
  have hl0 : (l : Rat) ≠ 0 := by exact_mod_cast (Nat.pos_iff_ne_zero.mp hl)
  obtain ⟨r, hr, hc⟩ := roundBinary64_div_ceil n l hl hn hl2
  simp only [JSNum.div, hl0, if_false, hr, JSNum.ceil, hc]

/-- Adding 1 to a natural number below `2 ^ 53` is exact. -/
theorem add_nat_one (p : Nat) (hp : p < 2 ^ 53) :
    (JSNum.fin (p : Rat)).add (.fin 1) = .fin ((p : Rat) + 1) := by
  have hp2 : (p : Int) < 2 ^ 53 := by exact_mod_cast hp
  have hz : |(p : Int) + 1| ≤ 2 ^ 53 := abs_le.mpr ⟨by omega, by omega⟩
  have := roundBinary64_intCast ((p : Int) + 1) hz
  push_cast at this
  simpa [JSNum.add] using this

/-- Subtracting 1 from a natural number below `2 ^ 53` is exact. -/
theorem sub_nat_one (p : Nat) (hp : p < 2 ^ 53) :
    (JSNum.fin (p : Rat)).sub (.fin 1) = .fin ((p : Rat) - 1) := by
  have hp2 : (p : Int) < 2 ^ 53 := by exact_mod_cast hp
  have hz : |(p : Int) - 1| ≤ 2 ^ 53 := abs_le.mpr ⟨by omega, by omega⟩
  have := roundBinary64_intCast ((p : Int) - 1) hz
  push_cast at this
  simpa [JSNum.sub, JSNum.neg, JSNum.add, sub_eq_add_neg] using this

/-- The page that `paginate` stores. -/
theorem paginate_currentPage (queryString : List (String × QValue)) (totalDocs : JSNum) :
    (paginate queryString totalDocs).paginationResult.currentPage
      = (Number (queryString.lookup "page")).orElse (.fin 1) := rfl

/-- The limit that `paginate` stores. -/
theorem paginate_limit (queryString : List (String × QValue)) (totalDocs : JSNum) :
    (paginate queryString totalDocs).paginationResult.limit
      = (Number (queryString.lookup "limit")).orElse (.fin 50) := rfl

/-- The limit that `paginate` puts on the query. -/
theorem paginate_queryLimit (queryString : List (String × QValue)) (totalDocs : JSNum) :
    (paginate queryString totalDocs).limit
      = (Number (queryString.lookup "limit")).orElse (.fin 50) := rfl

/-- The number of pages that `paginate` stores. -/
theorem paginate_numberOfPages (queryString : List (String × QValue)) (totalDocs : JSNum) :
    (paginate queryString totalDocs).paginationResult.numberOfPages
      = (totalDocs.div ((Number (queryString.lookup "limit")).orElse (.fin 50))).ceil := rfl

/-- The field `next` that `paginate` stores. -/
theorem paginate_next (queryString : List (String × QValue)) (totalDocs : JSNum) :
    (paginate queryString totalDocs).paginationResult.next
      = (if ((Number (queryString.lookup "page")).orElse (.fin 1)).lt
            (paginate queryString totalDocs).paginationResult.numberOfPages
          then some (((Number (queryString.lookup "page")).orElse (.fin 1)).add (.fin 1))
          else none) := rfl

/-- The field `previous` that `paginate` stores. -/
theorem paginate_previous (queryString : List (String × QValue)) (totalDocs : JSNum) :
    (paginate queryString totalDocs).paginationResult.previous
      = (if ((Number (queryString.lookup "page")).orElse (.fin 1)).gt (.fin 1)
          then some (((Number (queryString.lookup "page")).orElse (.fin 1)).sub (.fin 1))
          else none) := rfl

/-- C9. When `Number` makes a falsy value of both `page` and `limit`, as it
does of an absent and of a non-numeric parameter, which give `NaN`, `paginate`
stores page 1, limit 50, the ceiling of `totalDocs / 50` as number of pages
and `totalDocs` itself, and calls `skip(0)` and `limit(50)`; for a count `n`
below `2 ^ 53` the quotient rounded to binary64 has the ceiling of the exact
quotient `n / 50`. -/
theorem paginate_defaults (queryString : List (String × QValue)) (totalDocs : JSNum)
    (hp : (Number (queryString.lookup "page")).truthy = false)
    (hl : (Number (queryString.lookup "limit")).truthy = false) :
    (paginate queryString totalDocs).paginationResult.currentPage = .fin 1 ∧
    (paginate queryString totalDocs).paginationResult.limit = .fin 50 ∧
    (paginate queryString totalDocs).paginationResult.numberOfPages
      = (totalDocs.div (.fin 50)).ceil ∧
    (∀ n : Nat, n < 2 ^ 53 → totalDocs = .fin n →
      (paginate queryString totalDocs).paginationResult.numberOfPages
        = .fin (Int.ceil ((n : Rat) / 50))) ∧
    (paginate queryString totalDocs).paginationResult.totalDocs = totalDocs ∧
    (paginate queryString totalDocs).skip = .fin 0 ∧
    (paginate queryString totalDocs).limit = .fin 50 := by
  have hP : (Number (queryString.lookup "page")).orElse (.fin 1) = .fin 1 := by
    simp [JSNum.orElse, hp]
  have hL : (Number (queryString.lookup "limit")).orElse (.fin 50) = .fin 50 := by
    simp [JSNum.orElse, hl]
  have hN : (paginate queryString totalDocs).paginationResult.numberOfPages
      = (totalDocs.div (.fin 50)).ceil := by
    rw [paginate_numberOfPages, hL]
  refine ⟨?_, ?_, hN, ?_, rfl, ?_, ?_⟩
  · rw [paginate_currentPage, hP]
  · rw [paginate_limit, hL]
  · intro n hn53 hn
    subst hn
    rw [hN]
    have := div_ceil_nat n 50 (by norm_num) hn53 (by norm_num)
    simpa using this
  · have hs : (paginate queryString totalDocs).skip
        = (((Number (queryString.lookup "page")).orElse (.fin 1)).sub (.fin 1)).mul
            ((Number (queryString.lookup "limit")).orElse (.fin 50)) := rfl
    rw [hs, hP, hL]
    simp [JSNum.sub, JSNum.neg, JSNum.add, JSNum.mul, roundBinary64_zero]
  · rw [paginate_queryLimit, hL]

/-- The example of C9: no `page`, `limit=abc`, 101 documents: both coerce to
`NaN`, and the result is page 1, limit 50, 3 pages, `skip(0)`. -/
theorem paginate_defaults_witness :
    Number (([("limit", QValue.str "abc")] : List (String × QValue)).lookup "page") = .nan ∧
    Number (([("limit", QValue.str "abc")] : List (String × QValue)).lookup "limit") = .nan ∧
    (paginate [("limit", .str "abc")] (.fin 101)).paginationResult.currentPage = .fin 1 ∧
    (paginate [("limit", .str "abc")] (.fin 101)).paginationResult.limit = .fin 50 ∧
    (paginate [("limit", .str "abc")] (.fin 101)).paginationResult.numberOfPages = .fin 3 ∧
    (paginate [("limit", .str "abc")] (.fin 101)).skip = .fin 0 := by
  have h1 : Number (([("limit", QValue.str "abc")] : List (String × QValue)).lookup "page")
      = .nan := by decide
  have h2 : Number (([("limit", QValue.str "abc")] : List (String × QValue)).lookup "limit")
      = .nan := by decide
  have t := paginate_defaults [("limit", .str "abc")] (.fin 101)
    (by rw [h1]; rfl) (by rw [h2]; rfl)
  refine ⟨h1, h2, t.1, t.2.1, ?_, t.2.2.2.2.2.1⟩
  have h3 := t.2.2.2.1 101 (by norm_num) (by norm_num)
  rw [h3]
  have hc : Int.ceil ((101 : Rat) / 50) = 3 := by
    rw [Int.ceil_eq_iff]; norm_num
  simp [hc]

/-! ## Pagination: page and limit -/

/-- C10, as stated, fails: `page=-3` is stored as page -3 and `limit=2.5` as
limit 2.5, and 2.5 is the argument of `limit(...)` on the query. -/
theorem paginate_positive_integer_counterexample :
    (paginate [("page", .str "-3"), ("limit", .str "2.5")] (.fin 10)).paginationResult.currentPage
      = .fin (-3) ∧
    ¬ (paginate [("page", .str "-3"), ("limit", .str "2.5")]
        (.fin 10)).paginationResult.currentPage.IsPositiveInteger ∧
    (paginate [("page", .str "-3"), ("limit", .str "2.5")] (.fin 10)).paginationResult.limit
      = .fin (5 / 2) ∧
    ¬ (paginate [("page", .str "-3"), ("limit", .str "2.5")]
        (.fin 10)).paginationResult.limit.IsPositiveInteger ∧
    (paginate [("page", .str "-3"), ("limit", .str "2.5")] (.fin 10)).limit = .fin (5 / 2) := by
  have hp : Number (([("page", QValue.str "-3"), ("limit", QValue.str "2.5")] :
      List (String × QValue)).lookup "page") = .fin (-3) := Number_neg_three
  have hl : Number (([("page", QValue.str "-3"), ("limit", QValue.str "2.5")] :
      List (String × QValue)).lookup "limit") = .fin (5 / 2) := Number_two_and_half
  have e1 : (paginate [("page", .str "-3"), ("limit", .str "2.5")]
      (.fin 10)).paginationResult.currentPage = .fin (-3) := by
    rw [paginate_currentPage, hp]
    simp [JSNum.orElse, JSNum.truthy]
  have e2 : (paginate [("page", .str "-3"), ("limit", .str "2.5")]
      (.fin 10)).paginationResult.limit = .fin (5 / 2) := by
    rw [paginate_limit, hl]
    simp [JSNum.orElse, JSNum.truthy]
  have e3 : (paginate [("page", .str "-3"), ("limit", .str "2.5")] (.fin 10)).limit
      = .fin (5 / 2) := by
    rw [paginate_queryLimit, hl]
    simp [JSNum.orElse, JSNum.truthy]
  refine ⟨e1, ?_, e2, ?_, e3⟩
  · rw [e1]; simp [JSNum.IsPositiveInteger]
  · rw [e2]
    have hd : ((5 : Rat) / 2).den = 2 := by norm_num
    simp [JSNum.IsPositiveInteger, hd]

/-- C10, amended. The page and the limit that `paginate` stores and uses are
`Number(page)` and `Number(limit)` when these are neither `NaN` nor 0, and 1
and 50 otherwise; they are never `NaN` and never 0, the limit of the query is
the stored limit and the skip is `(page - 1) * limit`; each is a positive
integer exactly when the coerced input is falsy or a positive integer. -/
theorem paginate_page_limit (queryString : List (String × QValue)) (totalDocs : JSNum) :
    (paginate queryString totalDocs).paginationResult.currentPage =
      (if (Number (queryString.lookup "page")).truthy then Number (queryString.lookup "page")
       else .fin 1) ∧
    (paginate queryString totalDocs).paginationResult.limit =
      (if (Number (queryString.lookup "limit")).truthy then Number (queryString.lookup "limit")
       else .fin 50) ∧
    (paginate queryString totalDocs).limit =
      (paginate queryString totalDocs).paginationResult.limit ∧
    (paginate queryString totalDocs).skip =
      (((paginate queryString totalDocs).paginationResult.currentPage).sub (.fin 1)).mul
        (paginate queryString totalDocs).paginationResult.limit ∧
    (paginate queryString totalDocs).paginationResult.currentPage ≠ .nan ∧
    (paginate queryString totalDocs).paginationResult.currentPage ≠ .fin 0 ∧
    (paginate queryString totalDocs).paginationResult.limit ≠ .nan ∧
    (paginate queryString totalDocs).paginationResult.limit ≠ .fin 0 ∧
    ((paginate queryString totalDocs).paginationResult.currentPage.IsPositiveInteger ↔
      ((Number (queryString.lookup "page")).truthy = false ∨
        (Number (queryString.lookup "page")).IsPositiveInteger)) ∧
    ((paginate queryString totalDocs).paginationResult.limit.IsPositiveInteger ↔
      ((Number (queryString.lookup "limit")).truthy = false ∨
        (Number (queryString.lookup "limit")).IsPositiveInteger)) := by
  have key : ∀ (a : JSNum) (d : Rat), 0 < d → d.den = 1 →
      (a.orElse (.fin d) ≠ .nan ∧ a.orElse (.fin d) ≠ .fin 0 ∧
        ((a.orElse (.fin d)).IsPositiveInteger ↔ (a.truthy = false ∨ a.IsPositiveInteger))) := by
    intro a d hd hden
    by_cases ha : a.truthy = true
    · have hne := truthy_ne a ha
      simp [JSNum.orElse, ha, hne.1, hne.2]
    · have ha2 : a.truthy = false := by simpa using ha
      have hd0 : d ≠ 0 := ne_of_gt hd
      simp [JSNum.orElse, ha2, JSNum.IsPositiveInteger, hd, hden, hd0]
  have kp := key (Number (queryString.lookup "page")) 1 (by norm_num) rfl
  have kl := key (Number (queryString.lookup "limit")) 50 (by norm_num) rfl
  exact ⟨rfl, rfl, rfl, rfl, kp.1, kp.2.1, kl.1, kl.2.1, kp.2.2, kl.2.2⟩

/-- The example of C10: `page=0` is stored as page 1 and `limit=20` as limit
20, both positive integers; `page=1e400` overflows and is stored as
`Infinity`, `page=1e-400` underflows to 0 and is stored as page 1. -/
theorem paginate_page_limit_witness :
    (paginate [("page", .str "0"), ("limit", .str "20")] (.fin 10)).paginationResult.currentPage
      = .fin 1 ∧
    (paginate [("page", .str "0"), ("limit", .str "20")] (.fin 10)).paginationResult.limit
      = .fin 20 ∧
    (paginate [("page", .str "1e400")] (.fin 10)).paginationResult.currentPage = .posInf ∧
    (paginate [("page", .str "1e-400")] (.fin 10)).paginationResult.currentPage = .fin 1 := by
  have t := paginate_page_limit [("page", .str "0"), ("limit", .str "20")] (.fin 10)
  have hp : Number (([("page", QValue.str "0"), ("limit", QValue.str "20")] :
      List (String × QValue)).lookup "page") = .fin 0 := Number_zero
  have hl : Number (([("page", QValue.str "0"), ("limit", QValue.str "20")] :
      List (String × QValue)).lookup "limit") = .fin 20 := Number_twenty
  have t2 := paginate_page_limit [("page", .str "1e400")] (.fin 10)
  have hp2 : Number (([("page", QValue.str "1e400")] :
      List (String × QValue)).lookup "page") = .posInf := Number_overflow
  have t3 := paginate_page_limit [("page", .str "1e-400")] (.fin 10)
  have hp3 : Number (([("page", QValue.str "1e-400")] :
      List (String × QValue)).lookup "page") = .fin 0 := Number_underflow
  refine ⟨?_, ?_, ?_, ?_⟩
  · rw [t.1, hp]; simp [JSNum.truthy]
  · rw [t.2.1, hl]; simp [JSNum.truthy]
  · rw [t2.1, hp2]; simp [JSNum.truthy]
  · rw [t3.1, hp3]; simp [JSNum.truthy]

/-! ## Pagination: adjacent pages -/

/-- The coercion of the string `5`. -/
theorem Number_five : Number (some (.str "5")) = .fin 5 := by
  have h : parseNumber "5" = .dec false 5 0 := by decide
  simp only [Number, QValue.toStr, h]
  simpa using toJSNum_nat 5 (by norm_num)

/-- The coercion of the string `2`. -/
theorem Number_two : Number (some (.str "2")) = .fin 2 := by
  have h : parseNumber "2" = .dec false 2 0 := by decide
  simp only [Number, QValue.toStr, h]
  simpa using toJSNum_nat 2 (by norm_num)

/-- A positive natural number is truthy and passes `|| d` unchanged. -/
theorem orElse_pos (k : Nat) (hk : 0 < k) (d : JSNum) :
    (JSNum.fin (k : Rat)).orElse d = .fin (k : Rat) := by
  have h0 : (k : Rat) ≠ 0 := by exact_mod_cast (Nat.pos_iff_ne_zero.mp hk)
  simp [JSNum.orElse, JSNum.truthy, h0]

/-- The quotient of `2 ^ 53 + 2` by 1 is exact. -/
theorem div_even_one : (JSNum.fin 9007199254740994).div (.fin 1) = .fin 9007199254740994 := by
  have h1 : (1 : Rat) ≠ 0 := one_ne_zero
  have h2 : (9007199254740994 : Rat) / 1 = 9007199254740994 := div_one _
  simp only [JSNum.div, h1, if_false, h2, roundBinary64_even]

/-- The ceiling of `2 ^ 53 + 2` is the number itself. -/
theorem ceil_even : (JSNum.fin 9007199254740994).ceil = .fin 9007199254740994 := by
  have hc : Int.ceil (9007199254740994 : Rat) = 9007199254740994 := by
    rw [Int.ceil_eq_iff]; norm_num
  simp only [JSNum.ceil, hc]
  norm_num

/-- The sum of `2 ^ 53` and 1, as `+` computes it, is `2 ^ 53`. -/
theorem add_two_pow_53_one :
    (JSNum.fin 9007199254740992).add (.fin 1) = .fin 9007199254740992 := by
  simp only [JSNum.add, roundBinary64_tie]

/-- The comparison `2 ^ 53 < 2 ^ 53 + 2` holds. -/
theorem lt_two_pow_53_even :
    (JSNum.fin 9007199254740992).lt (.fin 9007199254740994) = true := by
  have hlt : (9007199254740992 : Rat) < 9007199254740994 := by norm_num
  simp only [JSNum.lt, hlt, decide_True]

/-- C11, as stated, fails: with 10 documents, limit 5 and page 5 there are 2
pages and `previous` is 4, not `null`; and with `2 ^ 53 + 2` documents, limit
1 and page `2 ^ 53` the next page exists and `next` is `2 ^ 53`, the page
itself, since `2 ^ 53 + 1` is not a binary64 value. -/
theorem paginate_previous_counterexample :
    (paginate [("page", .str "5"), ("limit", .str "5")] (.fin 10)).paginationResult.numberOfPages
      = .fin 2 ∧
    (paginate [("page", .str "5"), ("limit", .str "5")] (.fin 10)).paginationResult.previous
      = some (.fin 4) ∧
    (paginate [("page", .str "5"), ("limit", .str "5")] (.fin 10)).paginationResult.next
      = none ∧
    (paginate [("page", .str "9007199254740992"), ("limit", .str "1")]
        (.fin 9007199254740994)).paginationResult.currentPage = .fin 9007199254740992 ∧
    (paginate [("page", .str "9007199254740992"), ("limit", .str "1")]
        (.fin 9007199254740994)).paginationResult.numberOfPages = .fin 9007199254740994 ∧
    (paginate [("page", .str "9007199254740992"), ("limit", .str "1")]
        (.fin 9007199254740994)).paginationResult.next = some (.fin 9007199254740992) := by
  have hbp : Number (([("page", QValue.str "9007199254740992"), ("limit", QValue.str "1")] :
      List (String × QValue)).lookup "page") = .fin 9007199254740992 := Number_two_pow_53
  have hbl : Number (([("page", QValue.str "9007199254740992"), ("limit", QValue.str "1")] :
      List (String × QValue)).lookup "limit") = .fin 1 := Number_one
  have hbP : (paginate [("page", .str "9007199254740992"), ("limit", .str "1")]
      (.fin 9007199254740994)).paginationResult.currentPage = .fin 9007199254740992 := by
    rw [paginate_currentPage, hbp]
    simp [JSNum.orElse, JSNum.truthy]
  have hbN : (paginate [("page", .str "9007199254740992"), ("limit", .str "1")]
      (.fin 9007199254740994)).paginationResult.numberOfPages = .fin 9007199254740994 := by
    have ho : (JSNum.fin 1).orElse (.fin 50) = .fin 1 := by
      simp [JSNum.orElse, JSNum.truthy]
    rw [paginate_numberOfPages, hbl, ho, div_even_one, ceil_even]
  have hbn : (paginate [("page", .str "9007199254740992"), ("limit", .str "1")]
      (.fin 9007199254740994)).paginationResult.next = some (.fin 9007199254740992) := by
    have ho : (JSNum.fin 9007199254740992).orElse (.fin 1) = .fin 9007199254740992 := by
      simp [JSNum.orElse, JSNum.truthy]
    rw [paginate_next, hbN, hbp, ho, lt_two_pow_53_even, add_two_pow_53_one]
    rfl
  have hp : Number (([("page", QValue.str "5"), ("limit", QValue.str "5")] :
      List (String × QValue)).lookup "page") = .fin ((5 : Nat) : Rat) := by
    simpa using Number_five
  have hl : Number (([("page", QValue.str "5"), ("limit", QValue.str "5")] :
      List (String × QValue)).lookup "limit") = .fin ((5 : Nat) : Rat) := by
    simpa using Number_five
  have hc : Int.ceil (((10 : Nat) : Rat) / ((5 : Nat) : Rat)) = 2 := by
    rw [Int.ceil_eq_iff]; norm_num
  have hN : (paginate [("page", .str "5"), ("limit", .str "5")]
      (.fin 10)).paginationResult.numberOfPages = .fin 2 := by
    have hd := div_ceil_nat 10 5 (by norm_num) (by norm_num) (by norm_num)
    rw [hc] at hd
    rw [paginate_numberOfPages, hl, orElse_pos 5 (by norm_num)]
    simpa using hd
  refine ⟨hN, ?_, ?_, hbP, hbN, hbn⟩
  · rw [paginate_previous, hp, orElse_pos 5 (by norm_num), sub_nat_one 5 (by norm_num)]
    simp [JSNum.gt, JSNum.lt]
    norm_num
  · rw [paginate_next, hN, hp, orElse_pos 5 (by norm_num)]
    simp [JSNum.lt]
    norm_num

/-- C11, amended. For `totalDocs = n ≥ 0` and positive integers `page = p` and
`limit = l`, all three below `2 ^ 53`, the number of pages is `⌈n / l⌉`;
`next` is `p + 1` when `1 ≤ p + 1 ≤ ⌈n / l⌉` and `null` otherwise, so a `next`
that is not `null` is the number of an existing page; `previous` is `p - 1`
when `1 ≤ p - 1` and `null` otherwise, whatever the number of pages, so a
`previous` that is not `null` is the number of an existing page when
`p ≤ ⌈n / l⌉ + 1`. -/
theorem paginate_adjacent (queryString : List (String × QValue)) (n p l : Nat)
    (hp : 0 < p) (hl : 0 < l) (hn53 : n < 2 ^ 53) (hp53 : p < 2 ^ 53) (hl53 : l < 2 ^ 53)
    (hpage : Number (queryString.lookup "page") = .fin (p : Rat))
    (hlimit : Number (queryString.lookup "limit") = .fin (l : Rat)) :
    (paginate queryString (.fin (n : Rat))).paginationResult.numberOfPages
      = .fin ((Int.ceil ((n : Rat) / (l : Rat)) : Int) : Rat) ∧
    (paginate queryString (.fin (n : Rat))).paginationResult.next
      = (if 1 ≤ (p : Int) + 1 ∧ (p : Int) + 1 ≤ Int.ceil ((n : Rat) / (l : Rat))
          then some (.fin ((p : Rat) + 1)) else none) ∧
    (paginate queryString (.fin (n : Rat))).paginationResult.previous
      = (if 1 ≤ (p : Int) - 1 then some (.fin ((p : Rat) - 1)) else none) ∧
    (∀ x, (paginate queryString (.fin (n : Rat))).paginationResult.next = some x →
      x = .fin (((p : Int) + 1 : Int) : Rat) ∧ 1 ≤ (p : Int) + 1 ∧
        (p : Int) + 1 ≤ Int.ceil ((n : Rat) / (l : Rat))) ∧
    (∀ x, (paginate queryString (.fin (n : Rat))).paginationResult.previous = some x →
      x = .fin (((p : Int) - 1 : Int) : Rat) ∧ 1 ≤ (p : Int) - 1 ∧
        ((p : Int) ≤ Int.ceil ((n : Rat) / (l : Rat)) + 1 →
          (p : Int) - 1 ≤ Int.ceil ((n : Rat) / (l : Rat)))) := by
  have hpage2 := orElse_pos p hp (.fin 1)
  have hlimit2 := orElse_pos l hl (.fin 50)
  have hN : (paginate queryString (.fin (n : Rat))).paginationResult.numberOfPages
      = .fin ((Int.ceil ((n : Rat) / (l : Rat)) : Int) : Rat) := by
    rw [paginate_numberOfPages, hlimit, hlimit2]
    exact div_ceil_nat n l hl hn53 hl53
  have hlt : ((p : Rat) < ((Int.ceil ((n : Rat) / (l : Rat)) : Int) : Rat)) ↔
      (1 ≤ (p : Int) + 1 ∧ (p : Int) + 1 ≤ Int.ceil ((n : Rat) / (l : Rat))) := by
    have h1 : ((p : Rat) < ((Int.ceil ((n : Rat) / (l : Rat)) : Int) : Rat)) ↔
        (p : Int) < Int.ceil ((n : Rat) / (l : Rat)) := by
      rw [← Int.cast_natCast, Int.cast_lt]
    rw [h1]
    constructor
    · intro h; omega
    · intro h; omega
  have hgt : ((1 : Rat) < (p : Rat)) ↔ 1 ≤ (p : Int) - 1 := by
    have h1 : ((1 : Rat) < (p : Rat)) ↔ 1 < p := by exact_mod_cast Iff.rfl
    rw [h1]
    constructor
    · intro h; omega
    · intro h; omega
  have hnext : (paginate queryString (.fin (n : Rat))).paginationResult.next
      = (if 1 ≤ (p : Int) + 1 ∧ (p : Int) + 1 ≤ Int.ceil ((n : Rat) / (l : Rat))
          then some (.fin ((p : Rat) + 1)) else none) := by
    rw [paginate_next, hN, hpage, hpage2, add_nat_one p hp53]
    simp only [JSNum.lt, decide_eq_true_eq, hlt]
  have hprev : (paginate queryString (.fin (n : Rat))).paginationResult.previous
      = (if 1 ≤ (p : Int) - 1 then some (.fin ((p : Rat) - 1)) else none) := by
    rw [paginate_previous, hpage, hpage2, sub_nat_one p hp53]
    simp only [JSNum.gt, JSNum.lt, decide_eq_true_eq, hgt]
  refine ⟨hN, hnext, hprev, ?_, ?_⟩
  · intro x hx
    rw [hnext] at hx
    by_cases hc : 1 ≤ (p : Int) + 1 ∧ (p : Int) + 1 ≤ Int.ceil ((n : Rat) / (l : Rat))
    · rw [if_pos hc] at hx
      cases hx
      refine ⟨?_, hc.1, hc.2⟩
      push_cast
      rfl
    · rw [if_neg hc] at hx
      cases hx
  · intro x hx
    rw [hprev] at hx
    by_cases hc : 1 ≤ (p : Int) - 1
    · rw [if_pos hc] at hx
      cases hx
      refine ⟨?_, hc, ?_⟩
      · push_cast
        rfl
      · intro h; omega
    · rw [if_neg hc] at hx
      cases hx

/-- The example of C11: 10 documents, limit 5, page 2: 2 pages, `next` is
`null` and `previous` is 1. -/
theorem paginate_adjacent_witness :
    (paginate [("page", .str "2"), ("limit", .str "5")] (.fin 10)).paginationResult.numberOfPages
      = .fin 2 ∧
    (paginate [("page", .str "2"), ("limit", .str "5")] (.fin 10)).paginationResult.next
      = none ∧
    (paginate [("page", .str "2"), ("limit", .str "5")] (.fin 10)).paginationResult.previous
      = some (.fin 1) := by
  have hp : Number (([("page", QValue.str "2"), ("limit", QValue.str "5")] :
      List (String × QValue)).lookup "page") = .fin ((2 : Nat) : Rat) := by
    simpa using Number_two
  have hl : Number (([("page", QValue.str "2"), ("limit", QValue.str "5")] :
      List (String × QValue)).lookup "limit") = .fin ((5 : Nat) : Rat) := by
    simpa using Number_five
  have t := paginate_adjacent [("page", .str "2"), ("limit", .str "5")] 10 2 5
    (by decide) (by decide) (by norm_num) (by norm_num) (by norm_num) hp hl
  have hc : Int.ceil (((10 : Nat) : Rat) / ((5 : Nat) : Rat)) = 2 := by
    rw [Int.ceil_eq_iff]; norm_num
  have e0 : (JSNum.fin ((10 : Nat) : Rat)) = .fin 10 := by norm_num
  rw [e0] at t
  refine ⟨?_, ?_, ?_⟩
  · rw [t.1, hc]; norm_num
  · rw [t.2.1, hc]; norm_num
  · rw [t.2.2.1]; norm_num

/-! ## Keyword search -/

/-- A keyword without metacharacter and without dot denotes the pattern of its
own characters. -/
theorem parsePattern_literal (cs : List Char)
    (h : ∀ c ∈ cs, isRegexMeta c = false ∧ c ≠ '.') :
    parsePattern cs = some (cs.map RegexAtom.char) := by
  induction cs with
  | nil => rfl
  | cons c rest ih =>
      have hc := h c (List.mem_cons_self _ _)
      have hr := ih (fun d hd => h d (List.mem_cons_of_mem _ hd))
      simp [parsePattern, hc.1, hc.2, hr]

/-- A pattern of given characters matches at the start of a text exactly when
the text starts with these characters, case ignored. -/
theorem matchesAt_literal (kw text : List Char) :
    matchesAt true (kw.map RegexAtom.char) text = true ↔
      (kw.map Char.toLower) <+: (text.map Char.toLower) := by
  induction kw generalizing text with
  | nil => simp [matchesAt]
  | cons k rest ih =>
      cases text with
      | nil => simp [matchesAt]
      | cons c cs =>
          simp [matchesAt, atomMatches, ih cs]

/-- A pattern of given characters matches somewhere in a text exactly when the
text contains these characters in a row, case ignored. -/
theorem regexSearch_literal (kw text : List Char) :
    regexSearch true (kw.map RegexAtom.char) text = true ↔
      (kw.map Char.toLower) <:+: (text.map Char.toLower) := by
  induction text with
  | nil =>
      cases kw <;> simp [regexSearch, matchesAt]
  | cons c cs ih =>
      have hm := matchesAt_literal kw (c :: cs)
      simp only [List.map_cons] at hm
      simp only [regexSearch, Bool.or_eq_true, List.map_cons, List.infix_cons_iff, hm, ih]

/-- A clause whose pattern is a keyword of ordinary characters holds of a
document exactly when the field exists and contains the keyword. -/
theorem RegexClause.eval_literal (field kw : String) (doc : List (String × String))
    (hlit : ∀ c ∈ kw.toList, isRegexMeta c = false ∧ c ≠ '.') :
    RegexClause.eval ⟨field, .str kw, "i"⟩ doc = some (fieldContains kw field doc) := by
  have hp : parsePattern kw.toList = some (kw.toList.map RegexAtom.char) :=
    parsePattern_literal kw.toList hlit
  have hi : ("i" : String).toList.contains 'i' = true := by decide
  cases hd : doc.lookup field with
  | none => simp only [RegexClause.eval, hp, Option.map_some', hd, fieldContains]
  | some text =>
      have hs := regexSearch_literal kw.toList text.toList
      simp only [RegexClause.eval, hp, Option.map_some', hd, hi, fieldContains,
        containsIgnoreCase]
      congr 1
      rw [Bool.eq_iff_iff, hs]
      simp

/-- C13, as stated, fails: the keyword `a.c` matches a product titled `abc`
with the description `plain`, although neither text contains `a.c`. -/
theorem search_regex_counterexample :
    ((search "Product" [("keyword", .str "a.c")]).bind
        (fun q => q.eval [("title", "abc"), ("description", "plain")])) = some true ∧
    ¬ containsIgnoreCase "a.c" "abc" ∧
    ¬ containsIgnoreCase "a.c" "plain" := by
  refine ⟨?_, ?_, ?_⟩ <;> decide

/-- C13, amended. For every non-empty keyword that holds no regular-expression
metacharacter (dot included) and every document, the query that
`search('Product')` builds, with the keyword as a caseless `$regex` on `title`
and on `description`, matches the document exactly when its title or its
description contains the keyword as a substring, case ignored. -/
theorem search_product_literal (queryString : List (String × QValue)) (kw : String)
    (doc : List (String × String))
    (hk : queryString.lookup "keyword" = some (.str kw)) (hne : kw ≠ "")
    (hlit : ∀ c ∈ kw.toList, isRegexMeta c = false ∧ c ≠ '.') :
    search "Product" queryString =
      some { or := [⟨"title", .str kw, "i"⟩, ⟨"description", .str kw, "i"⟩] } ∧
    ((search "Product" queryString).bind (fun q => q.eval doc)) =
      some (fieldContains kw "title" doc || fieldContains kw "description" doc) := by
  have hs : search "Product" queryString =
      some { or := [⟨"title", .str kw, "i"⟩, ⟨"description", .str kw, "i"⟩] } := by
    simp [search, hk, QValue.truthy, hne]
  refine ⟨hs, ?_⟩
  rw [hs]
  simp [OrQuery.eval, evalClauses, RegexClause.eval_literal _ kw doc hlit]

/-- The example of C13: the keyword `Ab` matches a product titled `xxaBc` and
does not match one titled `xyz`. -/
theorem search_product_literal_witness :
    ((search "Product" [("keyword", .str "Ab")]).bind
        (fun q => q.eval [("title", "xxaBc"), ("description", "plain")])) = some true ∧
    ((search "Product" [("keyword", .str "Ab")]).bind
        (fun q => q.eval [("title", "xyz"), ("description", "plain")])) = some false := by
  have hlit : ∀ c ∈ ("Ab" : String).toList, isRegexMeta c = false ∧ c ≠ '.' := by decide
  have t1 := search_product_literal [("keyword", .str "Ab")] "Ab"
    [("title", "xxaBc"), ("description", "plain")] rfl (by decide) hlit
  have t2 := search_product_literal [("keyword", .str "Ab")] "Ab"
    [("title", "xyz"), ("description", "plain")] rfl (by decide) hlit
  refine ⟨?_, ?_⟩
  · rw [t1.2]; decide
  · rw [t2.2]; decide

/-! ## Filtering -/

/-- C12. On the query strings `name=lt`, `category=gt` and `title=size lt 5`
the predicate that `filter()` produces holds the values `$lt`, `$gt` and
`size $lt 5`: the replacement that turns the sub-key of `price[gte]=100` into
`$gte`, and drops `page` and `keyword`, also rewrites the operator tokens
inside leaf values. -/
theorem filter_rewrites_values :
    filter [("name", .str "lt")] = some (.obj [("name", .str "$lt")]) ∧
    filter [("category", .str "gt")] = some (.obj [("category", .str "$gt")]) ∧
    filter [("title", .str "size lt 5")] = some (.obj [("title", .str "size $lt 5")]) ∧
    filter [("price", .obj [("gte", .str "100")]), ("page", .str "2"), ("keyword", .str "x")]
      = some (.obj [("price", .obj [("$gte", .str "100")])]) :=
  ⟨rfl, rfl, rfl, rfl⟩

end Ecommerce
